import Mathlib

/-!
# Verification of charset-normalizer-rs against its specification

A shallow embedding, in Lean 4, of the parts of the `charset-normalizer-rs`
repository that the claims C1..C10 are about, together with theorems settling
each claim.

Conventions used throughout:
* `f32` scores are embedded as exact fractions (the type `Q` below): the
  concrete values exercised here are exactly representable in `f32`, and all
  comparisons stay far from rounding boundaries, so exact arithmetic agrees
  with the `f32` arithmetic of the code.
* Machine integers (`u64`, `usize`) are embedded as `ℕ`; none of the counters
  involved can overflow for the inputs considered.
* Fallible Rust code returning `Result` is embedded with `Except String`;
  a Rust panic (`unwrap` on `None`) is embedded as an `Except.error` whose
  message names the panic.
* The `consts` module of the repository is referenced by `src/lib.rs`,
  `src/utils.rs`, `src/cd.rs` and `src/md.rs` but is not present under `src/`;
  each definition taken from it is marked `Modelled from the spec:`.
* The low-level codec table, the WHATWG label registry and the Unicode
  character database are external collaborators of the program (spec section 1,
  "Deliberately OUT of scope"); they are embedded faithfully for the code
  points and labels exercised by the concrete evaluations below, and theorems
  that quantify over all inputs never depend on the values of these tables.
-/

set_option maxRecDepth 4000

namespace CharsetNormalizer

/-! ## Constants (the `consts` module is not under `src/`) -/

/-- Modelled from the spec: `TOO_SMALL_SEQUENCE=32` (spec section 3, Constants);
the `consts` module is missing from `src/`. -/
def TOO_SMALL_SEQUENCE : Nat := 32

/-- Modelled from the spec: `TOO_BIG_SEQUENCE=65536` (spec section 3, Constants);
the `consts` module is missing from `src/`. -/
def TOO_BIG_SEQUENCE : Nat := 65536

/-- Modelled from the spec: `MAX_PROCESSED_BYTES` (≈1 MiB) (spec section 3,
Constants); the `consts` module is missing from `src/`. -/
def MAX_PROCESSED_BYTES : Nat := 1048576

/-- Modelled from the spec: the common-safe character set of spec section 4.A
(space, comma, semicolon, colon, bang, question mark, dot, slash, hyphen,
double quote, apostrophe, parentheses, square brackets, curly braces); the
`consts` module is missing from `src/`. -/
def COMMON_SAFE_ASCII_CHARACTERS : List Char :=
  [' ', ',', ';', ':', '!', '?', '.', '/', '-', '"', '\x27', '(', ')', '[',
   ']', '\x7b', '\x7d']

/-- The weird-safe set `"<>-=~|_"`, written literally in `src/md.rs`. -/
def WEIRD_SAFE_CHARACTERS : List Char := ['<', '>', '-', '=', '~', '|', '_']

/-- Modelled from the spec: `UNICODE_SECONDARY_RANGE_KEYWORD`
(spec section 4.A); the `consts` module is missing from `src/`. -/
def UNICODE_SECONDARY_RANGE_KEYWORD : List String :=
  ["Supplement", "Extended", "Extensions", "Modifier", "Marks", "Punctuation",
   "Symbols", "Forms", "Operators", "Miscellaneous", "Drawing", "Block",
   "Shapes", "Supplemental"]

/-- Modelled from the spec: `IANA_SUPPORTED`, the canonical encodings required
by spec section 3 (Encoding); the `consts` module is missing from `src/`. -/
def IANA_SUPPORTED : List String :=
  ["ascii", "ibm866", "iso-8859-2", "iso-8859-3", "iso-8859-4", "iso-8859-5",
   "iso-8859-6", "iso-8859-7", "iso-8859-8", "iso-8859-10", "iso-8859-13",
   "iso-8859-14", "iso-8859-15", "iso-8859-16", "koi8-r", "koi8-u",
   "macintosh", "windows-874", "windows-1250", "windows-1251", "windows-1252",
   "windows-1253", "windows-1254", "windows-1255", "windows-1256",
   "windows-1257", "windows-1258", "x-mac-cyrillic", "gbk", "gb18030", "big5",
   "euc-jp", "iso-2022-jp", "shift_jis", "euc-kr", "utf-16le", "utf-16be",
   "utf-8"]

/-- Modelled from the spec: `ENCODING_MARKS` (spec section 4.C), the BOM / SIG
table; longer prefixes come before shorter ones so that utf-32le does not
collide with utf-16le. The `consts` module is missing from `src/`. -/
def ENCODING_MARKS : List (String × List Nat) :=
  [("utf-8", [0xEF, 0xBB, 0xBF]),
   ("gb18030", [0x84, 0x31, 0x95, 0x33]),
   ("utf-32be", [0x00, 0x00, 0xFE, 0xFF]),
   ("utf-32le", [0xFF, 0xFE, 0x00, 0x00]),
   ("utf-7", [0x2B, 0x2F, 0x76, 0x38, 0x2D]),
   ("utf-7", [0x2B, 0x2F, 0x76, 0x38]),
   ("utf-7", [0x2B, 0x2F, 0x76, 0x39]),
   ("utf-7", [0x2B, 0x2F, 0x76, 0x2B]),
   ("utf-7", [0x2B, 0x2F, 0x76, 0x2F]),
   ("utf-16be", [0xFE, 0xFF]),
   ("utf-16le", [0xFF, 0xFE])]

/-! ## Exact fractions

`f32` scores are embedded as exact fractions `Q` (integer numerator, positive
integer denominator, not normalised).  All values exercised by the concrete
evaluations below are exactly representable in `f32` and every comparison
stays far from any `f32` rounding boundary, so the exact arithmetic of `Q`
agrees with the `f32` arithmetic of the code on them.  Fractions are kept
unnormalised; numeric equality is cross-multiplication equality, exactly the
numeric `==` of `f32`. -/

structure Q where
  num : Int
  den : Int
  den_pos : 0 < den

/-- Numeric equality of fractions (the `==` of `f32` on finite values). -/
def Q.eqv (a b : Q) : Prop := a.num * b.den = b.num * a.den

/-- Numeric order on fractions (the `<=` of `f32` on finite values). -/
def Q.le (a b : Q) : Prop := a.num * b.den ≤ b.num * a.den

/-- Strict numeric order on fractions (the `<` of `f32` on finite values). -/
def Q.lt (a b : Q) : Prop := a.num * b.den < b.num * a.den

instance (a b : Q) : Decidable (Q.eqv a b) := inferInstanceAs (Decidable (_ = _))

instance (a b : Q) : Decidable (Q.le a b) := inferInstanceAs (Decidable (_ ≤ _))

instance (a b : Q) : Decidable (Q.lt a b) := inferInstanceAs (Decidable (_ < _))

/-- The integer `n` as a fraction. -/
def Q.ofInt (n : Int) : Q := ⟨n, 1, Int.one_pos⟩

/-- The natural number `n` as a fraction. -/
def Q.ofNat (n : Nat) : Q := ⟨(n : Int), 1, Int.one_pos⟩

/-- The fraction `n / d` (for positive `d`). -/
def Q.mk2 (n : Int) (d : Nat) (h : 0 < d := by decide) : Q :=
  ⟨n, (d : Int), Int.natCast_pos.mpr h⟩

def Q.add (a b : Q) : Q :=
  ⟨a.num * b.den + b.num * a.den, a.den * b.den, Int.mul_pos a.den_pos b.den_pos⟩

def Q.sub (a b : Q) : Q :=
  ⟨a.num * b.den - b.num * a.den, a.den * b.den, Int.mul_pos a.den_pos b.den_pos⟩

def Q.mul (a b : Q) : Q :=
  ⟨a.num * b.num, a.den * b.den, Int.mul_pos a.den_pos b.den_pos⟩

/-- Division of fractions.  Division by (numerically) zero never happens on
the paths exercised by the program embedding below; it is mapped to `0`. -/
def Q.div (a b : Q) : Q :=
  if h : 0 < b.num then ⟨a.num * b.den, a.den * b.num, Int.mul_pos a.den_pos h⟩
  else if h2 : b.num < 0 then
    ⟨-(a.num * b.den), a.den * (-b.num), Int.mul_pos a.den_pos (Int.neg_pos.mpr h2)⟩
  else Q.ofInt 0

/-- Absolute value (`f32::abs`). -/
def Q.abs (a : Q) : Q := ⟨|a.num|, a.den, a.den_pos⟩

theorem Q.le_refl (a : Q) : Q.le a a := Int.le_refl _

theorem Q.le_total (a b : Q) : Q.le a b ∨ Q.le b a := Int.le_total _ _

theorem Q.not_le (a b : Q) : ¬ Q.le a b ↔ Q.lt b a := by
  unfold Q.le Q.lt; omega

theorem Q.le_trans {a b c : Q} (h1 : Q.le a b) (h2 : Q.le b c) : Q.le a c := by
  unfold Q.le at *
  have hb := b.den_pos
  have h1' := mul_le_mul_of_nonneg_right h1 (le_of_lt c.den_pos)
  have h2' := mul_le_mul_of_nonneg_right h2 (le_of_lt a.den_pos)
  have : a.num * c.den * b.den ≤ c.num * a.den * b.den := by nlinarith
  exact le_of_mul_le_mul_right this hb

/-- `f32` machine epsilon (`f32::EPSILON` = 2⁻²³), the ε of spec section 9
("Float comparisons"). -/
def epsF32 : Q := Q.mk2 1 8388608

/-! ## Languages (`src/entity.rs`) -/

/-- The `Language` enum of `src/entity.rs`. -/
inductive Language where
  | English | German | French | Dutch | Italian | Polish | Spanish | Russian
  | Japanese | Portuguese | Swedish | Chinese | Ukrainian | Norwegian
  | Finnish | Vietnamese | Czech | Hungarian | Korean | Indonesian | Turkish
  | Romanian | Farsi | Arabic | Danish | Serbian | Lithuanian | Slovene
  | Slovak | Hebrew | Bulgarian | Croatian | Hindi | Estonian | Thai | Greek
  | Tamil | Kazakh | Unknown
deriving DecidableEq, Repr

/-- The `LANGUAGES` table of `src/assets.rs`:
`(language, alphabet, have_accents, pure_latin)`. -/
def LANGUAGES : List (Language × String × Bool × Bool) :=
  [(.English, "eationsrhldcmufpgwbyvkjxzq", false, true),
   (.English, "eationsrhldcumfpgwybvkxjzq", false, true),
   (.German, "enirstadhulgocmbfkwzpvüäöj", true, true),
   (.French, "easnitrluodcpmévgfbhqàxèyj", true, true),
   (.Dutch, "enairtodslghvmukcpbwjzfyxë", true, true),
   (.Italian, "eiaonltrscdupmgvfbzhqèàkyò", true, true),
   (.Polish, "aioenrzwsctkydpmuljłgbhąęó", true, true),
   (.Spanish, "eaonsrildtcumpbgvfyóhqíjzá", true, true),
   (.Russian, "оаеинстрвлкмдпугяызбйьчхжц", false, false),
   (.Japanese, "人一大亅丁丨竹笑口日今二彳行十土丶寸寺時乙丿乂气気冂巾亠市目儿見八小凵県月彐門間木東山出本中刀分耳又取最言田心思刂前京尹事生厶云会未来白冫楽灬馬尸尺駅明耂者了阝都高卜占厂广店子申奄亻俺上方冖学衣艮食自", false, false),
   (.Japanese, "ーンス・ルトリイアラックドシレジタフロカテマィグバムプオコデニウメサビナブャエュチキズダパミェョハセベガモツネボソノァヴワポペピケゴギザホゲォヤヒユヨヘゼヌゥゾヶヂヲヅヵヱヰヮヽ゠ヾヷヿヸヹヺ", false, false),
   (.Japanese, "のにるたとはしいをでてがなれからさっりすあもこまうくよきんめおけそつだやえどわちみせじばへびずろほげむべひょゆぶごゃねふぐぎぼゅづざぞぬぜぱぽぷぴぃぁぇぺゞぢぉぅゐゝゑ゛゜ゎゔ゚ゟ゙ゕゖ", false, false),
   (.Portuguese, "aeosirdntmuclpgvbfhãqéçází", true, true),
   (.Swedish, "eanrtsildomkgvhfupäcböåyjx", true, true),
   (.Chinese, "的一是不了在人有我他这个们中来上大为和国地到以说时要就出会可也你对生能而子那得于着下自之年过发后作里用道行所然家种事成方多经么去法学如都同现当没动面起看定天分还进好小部其些主样理心她本前开但因只从想实", false, false),
   (.Ukrainian, "оаніирвтесклудмпзяьбгйчхцї", false, false),
   (.Norwegian, "erntasioldgkmvfpubhåyjøcæw", false, true),
   (.Finnish, "aintesloukämrvjhpydögcbfwz", true, true),
   (.Vietnamese, "nhticgaoumlràđsevpbyưdákộế", true, true),
   (.Czech, "oeantsilvrkdumpíchzáyjběéř", true, true),
   (.Hungarian, "eatlsnkriozáégmbyvdhupjöfc", true, true),
   (.Korean, "이다에의는로하을가고지서한은기으년대사시를리도인스일", false, false),
   (.Indonesian, "aneirtusdkmlgpbohyjcwfvzxq", false, true),
   (.Turkish, "aeinrlıkdtsmyuobüşvgzhcpçğ", true, true),
   (.Romanian, "eiarntulocsdpmăfvîgbșțzhâj", true, true),
   (.Farsi, "ایردنهومتبسلکشزفگعخقجآپحطص", false, false),
   (.Arabic, "اليمونرتبةعدسفهكقأحجشطصىخإ", false, false),
   (.Danish, "erntaisdlogmkfvubhpåyøæcjw", false, true),
   (.Serbian, "аиоенрсуткјвдмплгзбaieonцш", false, false),
   (.Lithuanian, "iasoretnukmlpvdjgėbyųšžcąį", false, true),
   (.Slovene, "eaionrsltjvkdpmuzbghčcšžfy", false, true),
   (.Slovak, "oaenirvtslkdmpuchjbzáyýíčé", true, true),
   (.Hebrew, "יוהלרבתמאשנעםדקחפסכגטצןזך", false, false),
   (.Bulgarian, "аиоентрсвлкдпмзгяъубчцйжщх", false, false),
   (.Croatian, "aioenrjstuklvdmpgzbcčhšžćf", true, true),
   (.Hindi, "करसनतमहपयलवजदगबशटअएथभडचधषइ", false, false),
   (.Estonian, "aiestlunokrdmvgpjhäbõüfcöy", true, true),
   (.Thai, "านรอกเงมยลวดทสตะปบคหแจพชขใ", false, false),
   (.Greek, "ατοιενρσκηπςυμλίόάγέδήωχθύ", false, false),
   (.Tamil, "கதபடரமலனவறயளசநஇணஅஆழஙஎஉஒஸ", false, false),
   (.Kazakh, "аыентрлідсмқкобиуғжңзшйпгө", false, false)]

/-- The `ENCODING_TO_LANGUAGE` map of `src/assets.rs`. -/
def ENCODING_TO_LANGUAGE : List (String × Language) :=
  [("euc-kr", .Korean), ("big5", .Chinese), ("hz", .Chinese),
   ("gbk", .Chinese), ("gb18030", .Chinese), ("euc-jp", .Japanese),
   ("iso-2022-jp", .Japanese), ("shift_jis", .Japanese)]

/-! ## Match types (`src/entity.rs`) -/

/-- `CoherenceMatch` of `src/entity.rs` (score embedded as `Q`). -/
structure CoherenceMatchQ where
  language : Language
  score : Q

/-- `CharsetMatch` of `src/entity.rs`.  The blake3 `fingerprint` is embedded
as the hashed decoded string itself (`none` when the decoded payload is
absent, in which case the source keeps the initial empty `String`): blake3 is
collision-free on the inputs considered, and hashes of distinct strings are
distinct, so string equality coincides with fingerprint equality. -/
structure CharsetMatchQ where
  payload : List Nat
  encoding : String
  mean_mess_ratio : Q
  coherence_matches : List CoherenceMatchQ
  has_sig_or_bom : Bool
  fingerprint : Option String
  submatch : List CharsetMatchQ
  decoded_payload : Option String

/-- `CharsetMatch::coherence` (`src/entity.rs` lines 281-289): score of the
first coherence match, `0.0` when there is none. -/
def coherenceOf (m : CharsetMatchQ) : Q :=
  match m.coherence_matches with
  | [] => Q.ofInt 0
  | c :: _ => c.score

/-- `CharsetMatch::multi_byte_usage` (`src/entity.rs` lines 262-267):
`1 - decoded_chars / payload_len`. -/
def multiByteUsage (m : CharsetMatchQ) : Q :=
  Q.sub (Q.ofInt 1)
    (Q.div (Q.ofNat (m.decoded_payload.getD "").toList.length)
      (Q.ofNat m.payload.length))

/-- `f32::partial_cmp` on values that are not NaN (total order on `Q`). -/
def qcmp (x y : Q) : Ordering :=
  if Q.lt x y then .lt else if Q.eqv x y then .eq else .gt

/-- `CharsetMatch::partial_cmp` (`src/entity.rs` lines 120-139), embedded
verbatim: note that the inner multi-byte branch requires
`mess_difference == 0.0 && coherence_difference == 0.0` under an enclosing
guard requiring `coherence_difference > 0.02`. -/
def cmpCharsetMatch (a b : CharsetMatchQ) : Option Ordering :=
  let messDifference := Q.abs (Q.sub a.mean_mess_ratio b.mean_mess_ratio)
  let coherenceA := coherenceOf a
  let coherenceB := coherenceOf b
  let coherenceDifference := Q.abs (Q.sub coherenceA coherenceB)
  if Q.lt messDifference (Q.mk2 1 100) ∧ Q.lt (Q.mk2 2 100) coherenceDifference then
    if Q.eqv messDifference (Q.ofInt 0) ∧ Q.eqv coherenceDifference (Q.ofInt 0) then
      some (qcmp (multiByteUsage b) (multiByteUsage a))
    else
      some (qcmp coherenceB coherenceA)
  else
    some (qcmp a.mean_mess_ratio b.mean_mess_ratio)

/-- `CharsetMatch::suitable_encodings` (`src/entity.rs` lines 304-308). -/
def suitableEncodings (m : CharsetMatchQ) : List String :=
  m.encoding :: m.submatch.map (fun s => s.encoding)

/-- `CharsetMatch::add_submatch` (`src/entity.rs` lines 189-192). -/
def addSubmatch (m sub : CharsetMatchQ) : CharsetMatchQ :=
  { m with submatch := m.submatch ++ [sub] }

/-! ## Sorting (`Vec::sort_by` / `sort_unstable_by`) -/

/-- Stable insertion for an `Ordering`-valued comparator: the new element is
placed before the first element it strictly precedes, hence after any element
comparing equal — the stability discipline of Rust's `Vec::sort_by`. -/
def insertByCmp (cmp : α → α → Ordering) (a : α) : List α → List α
  | [] => [a]
  | b :: l => if cmp a b = .gt then b :: insertByCmp cmp a l else a :: b :: l

/-- Sorting with an `Ordering`-valued comparator (insertion sort).  This is a
stable sort, hence an admissible implementation of Rust's `Vec::sort_by`; for
`sort_unstable_by` it is one admissible execution (any consistent comparator
makes the two agree up to the order of comparing-equal elements). -/
def sortByCmp (cmp : α → α → Ordering) (l : List α) : List α :=
  l.foldr (insertByCmp cmp) []

/-! ## `CharsetMatches` (`src/entity.rs` lines 339-401) -/

/-- `CharsetMatches::resort` (`src/entity.rs` lines 379-381):
`sort_unstable_by(|a, b| a.partial_cmp(b).unwrap())`.  `cmpCharsetMatch`
always returns `some` on non-NaN scores, so the `unwrap` is embedded as
`getD .eq`. -/
def resortCM (items : List CharsetMatchQ) : List CharsetMatchQ :=
  sortByCmp (fun a b => (cmpCharsetMatch a b).getD .eq) items

/-- The merge loop inside `CharsetMatches::append` (`src/entity.rs` lines
352-359): find the first existing item with the same fingerprint and the same
(`f32 ==`) mean mess ratio and fold the new item into it as a submatch. -/
def mergeFirst : List CharsetMatchQ → CharsetMatchQ → Option (List CharsetMatchQ)
  | [], _ => none
  | m :: rest, item =>
    if m.fingerprint = item.fingerprint ∧ Q.eqv m.mean_mess_ratio item.mean_mess_ratio then
      some (addSubmatch m item :: rest)
    else
      (mergeFirst rest item).map (fun l => m :: l)

/-- `CharsetMatches::append` (`src/entity.rs` lines 348-363). -/
def appendCM (items : List CharsetMatchQ) (item : CharsetMatchQ) : List CharsetMatchQ :=
  if item.payload.length ≤ TOO_BIG_SEQUENCE then
    match mergeFirst items item with
    | some merged => merged
    | none => resortCM (items ++ [item])
  else resortCM (items ++ [item])

/-- `CharsetMatches::get_best` (`src/entity.rs` lines 365-370). -/
def getBestCM (items : List CharsetMatchQ) : Option CharsetMatchQ := items.head?

/-! ## Claim C1 and C8 inputs -/

/-- A match with the given chaos, coherence list and decoded payload, over a
four-byte payload (concrete-evaluation helper). -/
def mkMatch4 (enc : String) (chaos : Q) (cms : List CoherenceMatchQ)
    (decoded : String) : CharsetMatchQ :=
  { payload := [49, 50, 51, 52], encoding := enc, mean_mess_ratio := chaos,
    coherence_matches := cms, has_sig_or_bom := false,
    fingerprint := some decoded, submatch := [], decoded_payload := some decoded }

def c1MatchA : CharsetMatchQ := mkMatch4 "utf-8" (Q.ofInt 0) [] "abcd"

def c1MatchB : CharsetMatchQ := mkMatch4 "gb18030" (Q.ofInt 0) [] "ab"

def c8MatchX : CharsetMatchQ :=
  mkMatch4 "utf-8" (Q.ofInt 0) [⟨.English, Q.mk2 1 4⟩] "abcd"

def c8MatchY : CharsetMatchQ :=
  mkMatch4 "koi8-r" (Q.mk2 1 128) [⟨.English, Q.mk2 1 2⟩] "abcd"

def c8MatchZ : CharsetMatchQ :=
  mkMatch4 "ibm866" (Q.mk2 1 64) [⟨.English, Q.mk2 3 4⟩] "abcd"

/-- **C1** (code_bug evaluation): at two matches with equal chaos (difference
`0 < 0.01`), equal coherence (difference `0 ≤ 0.02`) and multi-byte usages
differing by more than ε (`c1MatchB` uses `0.5`, `c1MatchA` uses `0`), the
comparator of `CharsetMatch::partial_cmp` returns `Equal`: the claimed
multi-byte tiebreak (prefer the higher multi-byte usage, i.e. `Greater`
here) never fires, because its guard
`mess_difference == 0.0 && coherence_difference == 0.0` sits inside a branch
that requires `coherence_difference > 0.02` and is therefore unsatisfiable. -/
theorem c1_multibyte_tiebreak_dead :
    Q.lt (Q.abs (Q.sub c1MatchA.mean_mess_ratio c1MatchB.mean_mess_ratio)) (Q.mk2 1 100) ∧
    Q.le (Q.abs (Q.sub (coherenceOf c1MatchA) (coherenceOf c1MatchB))) (Q.mk2 2 100) ∧
    Q.lt epsF32 (Q.sub (multiByteUsage c1MatchB) (multiByteUsage c1MatchA)) ∧
    cmpCharsetMatch c1MatchA c1MatchB = some Ordering.eq := by
  decide

/-- **C8** counterexample: the comparator of `CharsetMatches::resort` is not
transitive — `c8MatchX` sorts after `c8MatchY` (higher coherence wins inside
the 0.01 chaos band), `c8MatchY` after `c8MatchZ`, yet `c8MatchX` sorts
before `c8MatchZ` (their chaos difference `1/64` leaves the band, so lower
chaos wins).  A relation with a 3-cycle is not a total order, refuting the
claim. -/
theorem c8_comparator_cycle :
    cmpCharsetMatch c8MatchX c8MatchY = some Ordering.gt ∧
    cmpCharsetMatch c8MatchY c8MatchZ = some Ordering.gt ∧
    cmpCharsetMatch c8MatchX c8MatchZ = some Ordering.lt := by
  decide

/-- **C8** (amended): the comparator is total in the sense that any two
matches are comparable — `partial_cmp` never returns `None` (scores are
real values, never NaN) — but, by the counterexample, it is not transitive,
so it does not induce a total order and idempotence of sorting is not
guaranteed. -/
theorem c8_amended_comparator_never_none (a b : CharsetMatchQ) :
    (cmpCharsetMatch a b).isSome = true := by
  simp only [cmpCharsetMatch]
  split
  · split <;> rfl
  · rfl

/-! ## Claim C3 -/

def c3MatchA : CharsetMatchQ :=
  { payload := [97], encoding := "utf-8", mean_mess_ratio := Q.ofInt 0,
    coherence_matches := [], has_sig_or_bom := false, fingerprint := some "a",
    submatch := [], decoded_payload := some "a" }

def c3MatchB : CharsetMatchQ :=
  { payload := [97], encoding := "windows-1252", mean_mess_ratio := Q.mk2 1 16777216,
    coherence_matches := [], has_sig_or_bom := false, fingerprint := some "a",
    submatch := [], decoded_payload := some "a" }

/-- **C3** counterexample: `c3MatchB` has the same decoded string (hence the
same fingerprint) as the container's only element `c3MatchA`, chaos within
`f32` machine epsilon of it (`|0 − 2⁻²⁴| = 2⁻²⁴ < 2⁻²³`), and a payload of
one byte (`≤ TOO_BIG_SEQUENCE`); yet `append` does not merge it — the code
requires the two mean mess ratios to be exactly equal (`==`), not within
epsilon — so `len` grows from 1 to 2 and no submatch is recorded. -/
theorem c3_append_within_epsilon_not_merged :
    c3MatchA.decoded_payload = c3MatchB.decoded_payload ∧
    c3MatchA.fingerprint = c3MatchB.fingerprint ∧
    Q.lt (Q.abs (Q.sub c3MatchA.mean_mess_ratio c3MatchB.mean_mess_ratio)) epsF32 ∧
    c3MatchB.payload.length ≤ TOO_BIG_SEQUENCE ∧
    (appendCM [c3MatchA] c3MatchB).length = 2 := by
  refine ⟨rfl, rfl, by decide, by decide, ?_⟩
  decide

/-- Merge-loop specification used by the amended C3 theorem: when some
existing item matches the new item's fingerprint and exact mean mess ratio,
the loop succeeds, keeps the length, and the new item's encoding appears in
the suitable encodings of some resulting item. -/
theorem mergeFirst_spec (item : CharsetMatchQ) :
    ∀ items : List CharsetMatchQ,
    (∃ m ∈ items, m.fingerprint = item.fingerprint ∧
      Q.eqv m.mean_mess_ratio item.mean_mess_ratio) →
    ∃ l, mergeFirst items item = some l ∧ l.length = items.length ∧
      ∃ m ∈ l, item.encoding ∈ suitableEncodings m
  | [], h => absurd h (by simp)
  | m :: rest, h => by
    by_cases hc : m.fingerprint = item.fingerprint ∧
        Q.eqv m.mean_mess_ratio item.mean_mess_ratio
    · refine ⟨addSubmatch m item :: rest, ?_, by simp, ?_⟩
      · simp [mergeFirst, hc]
      · refine ⟨addSubmatch m item, by simp, ?_⟩
        simp [suitableEncodings, addSubmatch]
    · have hrest : ∃ m2 ∈ rest, m2.fingerprint = item.fingerprint ∧
          Q.eqv m2.mean_mess_ratio item.mean_mess_ratio := by
        obtain ⟨m2, hm2, hprop⟩ := h
        rcases List.mem_cons.mp hm2 with rfl | hm2r
        · exact absurd hprop hc
        · exact ⟨m2, hm2r, hprop⟩
      obtain ⟨l, hl, hlen, m2, hm2, henc⟩ := mergeFirst_spec item rest hrest
      refine ⟨m :: l, ?_, by simpa using hlen, m2, by simp [hm2], henc⟩
      simp [mergeFirst, hc, hl]

/-- **C3** (amended): `append(b)` merges `b` into an existing peer — leaving
`len` unchanged and making `b.encoding` appear in the peer's
`suitable_encodings()` — exactly when the peer has the same fingerprint
(same decoded string) and an *exactly equal* chaos value (`f32 ==`), the
payload being at most `TOO_BIG_SEQUENCE`; chaos merely within machine
epsilon does not merge (counterexample above). -/
theorem c3_amended_append_merges_on_exact_chaos
    (items : List CharsetMatchQ) (item : CharsetMatchQ)
    (hsize : item.payload.length ≤ TOO_BIG_SEQUENCE)
    (hpeer : ∃ m ∈ items, m.fingerprint = item.fingerprint ∧
      Q.eqv m.mean_mess_ratio item.mean_mess_ratio) :
    (appendCM items item).length = items.length ∧
    ∃ m ∈ appendCM items item, item.encoding ∈ suitableEncodings m := by
  obtain ⟨l, hl, hlen, hm⟩ := mergeFirst_spec item items hpeer
  unfold appendCM
  rw [if_pos hsize, hl]
  exact ⟨hlen, hm⟩

/-- **C3** witness: a concrete instantiation of the amended theorem — a
one-element container whose element has fingerprint `some "a"` and chaos `0`,
appended with a match of equal fingerprint and exactly equal chaos. -/
theorem c3_amended_witness :
    (c3MatchA.payload.length ≤ TOO_BIG_SEQUENCE ∧
      (∃ m ∈ [c3MatchB], m.fingerprint = c3MatchA.fingerprint ∧
        Q.eqv m.mean_mess_ratio c3MatchA.mean_mess_ratio) → True) ∧
    ((appendCM [c3MatchA] c3MatchA).length = 1 ∧
      ∃ m ∈ appendCM [c3MatchA] c3MatchA, c3MatchA.encoding ∈ suitableEncodings m) := by
  refine ⟨fun _ => trivial, ?_⟩
  exact c3_amended_append_merges_on_exact_chaos [c3MatchA] c3MatchA (by decide)
    ⟨c3MatchA, by simp, rfl, by decide⟩

/-! ## Unicode classification

The Unicode character database is an external collaborator of the program
(spec section 1: "The Unicode character database … assumed available").  It
is embedded faithfully for the full ASCII block, the Latin-1 letters, and the
non-ASCII code points exercised by the concrete evaluations in this file
(Greek and Cyrillic lowercase letters, U+FEFF, the CJK block); code points
outside the modelled set take the default values.  Every theorem below that
quantifies over all inputs is independent of these tables. -/

/-- Whether `pat` occurs at the head of `l`. -/
def listLeads : List Char → List Char → Bool
  | [], _ => true
  | _ :: _, [] => false
  | p :: ps, x :: xs => decide (p = x) && listLeads ps xs

/-- Whether `pat` occurs contiguously anywhere in `l`. -/
def listSeg (pat : List Char) : List Char → Bool
  | [] => pat.isEmpty
  | x :: xs => listLeads pat (x :: xs) || listSeg pat xs

/-- Substring test (`str::contains` of Rust). -/
def strContainsStr (hay pat : String) : Bool := listSeg pat.toList hay.toList

/-- Unicode general category, two-letter abbreviation
(`GeneralCategory::of(ch).abbr_name()`); default `"Cn"` outside the modelled
set. -/
def generalCategory (c : Char) : String :=
  let n := c.toNat
  if n ≤ 0x08 then "Cc"
  else if n ≤ 0x0D then "Cc"
  else if n ≤ 0x1F then "Cc"
  else if n = 0x20 then "Zs"
  else if n = 0x21 then "Po"
  else if n = 0x22 then "Po"
  else if n = 0x23 then "Po"
  else if n = 0x24 then "Sc"
  else if n ≤ 0x27 then "Po"
  else if n = 0x28 then "Ps"
  else if n = 0x29 then "Pe"
  else if n = 0x2A then "Po"
  else if n = 0x2B then "Sm"
  else if n = 0x2C then "Po"
  else if n = 0x2D then "Pd"
  else if n ≤ 0x2F then "Po"
  else if n ≤ 0x39 then "Nd"
  else if n ≤ 0x3B then "Po"
  else if n ≤ 0x3E then "Sm"
  else if n ≤ 0x40 then "Po"
  else if n ≤ 0x5A then "Lu"
  else if n = 0x5B then "Ps"
  else if n = 0x5C then "Po"
  else if n = 0x5D then "Pe"
  else if n = 0x5E then "Sk"
  else if n = 0x5F then "Pc"
  else if n = 0x60 then "Sk"
  else if n ≤ 0x7A then "Ll"
  else if n = 0x7B then "Ps"
  else if n = 0x7C then "Sm"
  else if n = 0x7D then "Pe"
  else if n = 0x7E then "Sm"
  else if n = 0x7F then "Cc"
  else if n ≤ 0x9F then "Cc"
  else if n = 0xA0 then "Zs"
  else if n = 0xD7 then "Sm"
  else if n = 0xF7 then "Sm"
  else if 0xC0 ≤ n ∧ n ≤ 0xDE then "Lu"
  else if 0xDF ≤ n ∧ n ≤ 0xFF then "Ll"
  else if 0x3B1 ≤ n ∧ n ≤ 0x3C9 then "Ll"
  else if 0x410 ≤ n ∧ n ≤ 0x42F then "Lu"
  else if 0x430 ≤ n ∧ n ≤ 0x44F then "Ll"
  else if 0x3041 ≤ n ∧ n ≤ 0x3096 then "Lo"
  else if 0x30A1 ≤ n ∧ n ≤ 0x30FA then "Lo"
  else if 0x4E00 ≤ n ∧ n ≤ 0x9FFF then "Lo"
  else if 0xAC00 ≤ n ∧ n ≤ 0xD7A3 then "Lo"
  else if 0x0E01 ≤ n ∧ n ≤ 0x0E3A then "Lo"
  else if n = 0xFEFF then "Cf"
  else "Cn"

/-- `char::is_whitespace` (the Unicode `White_Space` property, complete). -/
def isWhitespaceUCD (c : Char) : Bool :=
  let n := c.toNat
  decide ((0x09 ≤ n ∧ n ≤ 0x0D) ∨ n = 0x20 ∨ n = 0x85 ∨ n = 0xA0 ∨
    n = 0x1680 ∨ (0x2000 ≤ n ∧ n ≤ 0x200A) ∨ n = 0x2028 ∨ n = 0x2029 ∨
    n = 0x202F ∨ n = 0x205F ∨ n = 0x3000)

/-- `char::is_alphabetic`, derived from the general category (`L*`). -/
def isAlphabeticUCD (c : Char) : Bool :=
  ["Lu", "Ll", "Lt", "Lm", "Lo"].contains (generalCategory c)

/-- `char::is_numeric` (`Nd`, `Nl`, `No`). -/
def isNumericUCD (c : Char) : Bool :=
  ["Nd", "Nl", "No"].contains (generalCategory c)

/-- `char::is_lowercase` (category `Ll` on the modelled set). -/
def isLowercaseUCD (c : Char) : Bool := generalCategory c = "Ll"

/-- `char::is_uppercase` (category `Lu` on the modelled set). -/
def isUppercaseUCD (c : Char) : Bool := generalCategory c = "Lu"

/-- Whether the character's Unicode name contains `"LATIN"`: the ASCII and
Latin-1 letters of the modelled set. -/
def hasLatinName (c : Char) : Bool :=
  let n := c.toNat
  decide ((0x41 ≤ n ∧ n ≤ 0x5A) ∨ (0x61 ≤ n ∧ n ≤ 0x7A) ∨
    (0xC0 ≤ n ∧ n ≤ 0xFF ∧ n ≠ 0xD7 ∧ n ≠ 0xF7))

/-- Whether the character's Unicode name contains one of `WITH GRAVE`,
`WITH ACUTE`, `WITH CEDILLA`, `WITH DIAERESIS`, `WITH CIRCUMFLEX`,
`WITH TILDE`: on the modelled set, exactly the accented Latin-1 letters. -/
def hasAccentName (c : Char) : Bool :=
  let n := c.toNat
  decide ((0xC0 ≤ n ∧ n ≤ 0xC4) ∨ (0xC7 ≤ n ∧ n ≤ 0xCF) ∨
    (0xD1 ≤ n ∧ n ≤ 0xD6) ∨ (0xD9 ≤ n ∧ n ≤ 0xDD) ∨ (0xE0 ≤ n ∧ n ≤ 0xE4) ∨
    (0xE7 ≤ n ∧ n ≤ 0xEF) ∨ (0xF1 ≤ n ∧ n ≤ 0xF6) ∨ (0xF9 ≤ n ∧ n ≤ 0xFD) ∨
    n = 0xFF)

/-- Unicode name contains `"CJK"`. -/
def hasCJKName (c : Char) : Bool :=
  let n := c.toNat
  decide ((0x4E00 ≤ n ∧ n ≤ 0x9FFF) ∨ (0x3400 ≤ n ∧ n ≤ 0x4DBF))

/-- Unicode name contains `"HANGUL"`. -/
def hasHangulName (c : Char) : Bool :=
  let n := c.toNat
  decide ((0xAC00 ≤ n ∧ n ≤ 0xD7A3) ∨ (0x1100 ≤ n ∧ n ≤ 0x11FF) ∨
    (0x3130 ≤ n ∧ n ≤ 0x318F))

/-- Unicode name contains `"KATAKANA"`. -/
def hasKatakanaName (c : Char) : Bool :=
  let n := c.toNat
  decide ((0x30A1 ≤ n ∧ n ≤ 0x30FA) ∨ (0x30FD ≤ n ∧ n ≤ 0x30FF))

/-- Unicode name contains `"HIRAGANA"`. -/
def hasHiraganaName (c : Char) : Bool :=
  let n := c.toNat
  decide ((0x3041 ≤ n ∧ n ≤ 0x3096) ∨ (0x309D ≤ n ∧ n ≤ 0x309E))

/-- Unicode name contains `"THAI"`. -/
def hasThaiName (c : Char) : Bool :=
  let n := c.toNat
  decide (0x0E01 ≤ n ∧ n ≤ 0x0E5B)

/-- `remove_accent` (`src/utils.rs` lines 217-223): first component of the
canonical NFD decomposition, the input itself when there is none.  Modelled
for the Latin-1 letters (the only accented characters in the modelled set). -/
def removeAccent (c : Char) : Char :=
  let n := c.toNat
  if 0xC0 ≤ n ∧ n ≤ 0xC5 then 'A'
  else if n = 0xC7 then 'C'
  else if 0xC8 ≤ n ∧ n ≤ 0xCB then 'E'
  else if 0xCC ≤ n ∧ n ≤ 0xCF then 'I'
  else if n = 0xD1 then 'N'
  else if 0xD2 ≤ n ∧ n ≤ 0xD6 then 'O'
  else if 0xD9 ≤ n ∧ n ≤ 0xDC then 'U'
  else if n = 0xDD then 'Y'
  else if 0xE0 ≤ n ∧ n ≤ 0xE5 then 'a'
  else if n = 0xE7 then 'c'
  else if 0xE8 ≤ n ∧ n ≤ 0xEB then 'e'
  else if 0xEC ≤ n ∧ n ≤ 0xEF then 'i'
  else if n = 0xF1 then 'n'
  else if 0xF2 ≤ n ∧ n ≤ 0xF6 then 'o'
  else if 0xF9 ≤ n ∧ n ≤ 0xFC then 'u'
  else if n = 0xFD ∨ n = 0xFF then 'y'
  else c

/-- Modelled from the spec: `UNICODE_RANGES_COMBINED` (the `consts` module is
missing from `src/`); the named-block table restricted to the blocks the
concrete evaluations touch, with "Control character" below 0x20 and
"Basic Latin" for 0x20..0x7F as in spec section 6 and the alphabets listed in
the `src/lib.rs` module documentation. -/
def unicodeRangeOf (c : Char) : Option String :=
  let n := c.toNat
  if n ≤ 0x1F then some "Control character"
  else if n ≤ 0x7F then some "Basic Latin"
  else if n ≤ 0xFF then some "Latin-1 Supplement"
  else if 0x370 ≤ n ∧ n ≤ 0x3FF then some "Greek and Coptic"
  else if 0x400 ≤ n ∧ n ≤ 0x4FF then some "Cyrillic"
  else if 0x0E00 ≤ n ∧ n ≤ 0x0E7F then some "Thai"
  else if 0x3040 ≤ n ∧ n ≤ 0x309F then some "Hiragana"
  else if 0x30A0 ≤ n ∧ n ≤ 0x30FF then some "Katakana"
  else if 0x4E00 ≤ n ∧ n ≤ 0x9FFF then some "CJK Unified Ideographs"
  else if 0xAC00 ≤ n ∧ n ≤ 0xD7AF then some "Hangul Syllables"
  else if 0xFE70 ≤ n ∧ n ≤ 0xFEFF then some "Arabic Presentation Forms-B"
  else none

/-- `is_unicode_range_secondary` (`src/utils.rs` lines 191-195). -/
def isUnicodeRangeSecondary (rangeName : String) : Bool :=
  UNICODE_SECONDARY_RANGE_KEYWORD.any (fun s => strContainsStr rangeName s)

/-- The category/range test `in_category` (`src/md.rs` lines 71-91 and
`src/utils.rs` lines 26-46). -/
def inCategory (category : String) (range : Option String)
    (categoriesExact categoriesPartial rangesPartial : List String) : Bool :=
  if categoriesExact.contains category ∨
      categoriesPartial.any (fun cp => strContainsStr category cp) then
    true
  else
    match rangesPartial, range with
    | [], _ => false
    | _ :: _, some r => rangesPartial.any (fun rp => strContainsStr r rp)
    | _ :: _, none => false

/-- Split on spaces, dropping empty words (`str::split_whitespace`). -/
def splitWordsAux : List Char → List Char → List String
  | [], acc => [String.mk acc.reverse]
  | c :: rest, acc =>
    if c = ' ' then String.mk acc.reverse :: splitWordsAux rest []
    else splitWordsAux rest (c :: acc)

/-- `str::split_whitespace` (range names contain only single spaces). -/
def splitWhitespaceStr (s : String) : List String :=
  (splitWordsAux s.toList []).filter (fun w => !w.isEmpty)

/-- `is_suspiciously_successive_range` (`src/utils.rs` lines 452-508). -/
def isSuspiciouslySuccessiveRange (rangeA rangeB : Option String) : Bool :=
  match rangeA, rangeB with
  | some ra, some rb =>
    if ra = rb ∨ (strContainsStr ra "Latin" ∧ strContainsStr rb "Latin") ∨
        strContainsStr ra "Emoticons" ∨ strContainsStr rb "Emoticons" then
      false
    else if (strContainsStr ra "Latin" ∨ strContainsStr rb "Latin") ∧
        (strContainsStr ra "Combining" ∨ strContainsStr rb "Combining") then
      false
    else
      let wordsA := splitWhitespaceStr ra
      let wordsB := splitWhitespaceStr rb
      if wordsA.any (fun w =>
          wordsB.contains w ∧ ¬ UNICODE_SECONDARY_RANGE_KEYWORD.contains w) then
        false
      else
        let hasJpA := ["Hiragana", "Katakana"].contains ra
        let hasJpB := ["Hiragana", "Katakana"].contains rb
        let hasCjk := strContainsStr ra "CJK" ∨ strContainsStr rb "CJK"
        let hasHangul := strContainsStr ra "Hangul" ∨ strContainsStr rb "Hangul"
        let hasPunctOrForms := strContainsStr ra "Punctuation" ∨
          strContainsStr ra "Forms" ∨ strContainsStr rb "Punctuation" ∨
          strContainsStr rb "Forms"
        let isAnyBasicLatin := ra = "Basic Latin" ∨ rb = "Basic Latin"
        if hasJpA ∧ hasJpB then false
        else if (hasJpA ∨ hasJpB) ∧ hasCjk then false
        else if hasCjk ∧ hasHangul then false
        else if hasCjk ∧ hasPunctOrForms then false
        else if hasHangul ∧ isAnyBasicLatin then false
        else true
  | _, _ => true

/-! ## Mess-detector characters (`src/md.rs` lines 54-242) -/

/-- `MessDetectorChar` of `src/md.rs`: the character together with its
precomputed flag record and Unicode range. -/
structure MessDetectorCharQ where
  character : Char
  whitespace : Bool
  unprintable : Bool
  symbol : Bool
  emoticon : Bool
  commonSafe : Bool
  weirdSafe : Bool
  punctuation : Bool
  separator : Bool
  ascii : Bool
  asciiAlphabetic : Bool
  asciiGraphic : Bool
  asciiDigit : Bool
  latin : Bool
  alphabetic : Bool
  accentuated : Bool
  cjk : Bool
  hangul : Bool
  katakana : Bool
  hiragana : Bool
  thai : Bool
  caseVariable : Bool
  lowercase : Bool
  uppercase : Bool
  numeric : Bool
  unicodeRange : Option String

/-- `new_mess_detector_character` (`src/md.rs` lines 111-242). -/
def newMessDetectorChar (c : Char) : MessDetectorCharQ :=
  let n := c.toNat
  let ascii : Bool := decide (n ≤ 0x7F)
  let asciiGraphic : Bool := decide (0x21 ≤ n ∧ n ≤ 0x7E)
  let asciiAlphabetic : Bool := asciiGraphic &&
    decide ((0x41 ≤ n ∧ n ≤ 0x5A) ∨ (0x61 ≤ n ∧ n ≤ 0x7A))
  let asciiDigit : Bool := asciiGraphic && !asciiAlphabetic &&
    decide (0x30 ≤ n ∧ n ≤ 0x39)
  let category := generalCategory c
  let range := unicodeRangeOf c
  let ws : Bool := isWhitespaceUCD c
  let commonSafe : Bool := !ws && COMMON_SAFE_ASCII_CHARACTERS.contains c
  let weirdSafe : Bool := !ws && WEIRD_SAFE_CHARACTERS.contains c
  let numeric : Bool := !ws && (asciiDigit || isNumericUCD c)
  let alphabetic : Bool := !ws && !numeric && (asciiAlphabetic || isAlphabeticUCD c)
  let lowercase : Bool := alphabetic && isLowercaseUCD c
  let uppercase : Bool := alphabetic && !lowercase && isUppercaseUCD c
  let caseVariable : Bool := lowercase || uppercase
  let unprintable : Bool := !ws && !numeric && !alphabetic && !asciiGraphic &&
    decide (n ≠ 0x1A) && decide (n ≠ 0xFEFF) &&
    inCategory category range ["Cc"] [] ["Control character"]
  let emoticon : Bool := !ws && inCategory category range [] [] ["Emoticons"]
  let separator : Bool := ws || (!ws && (['｜', '+', '<', '>'].contains c ||
    inCategory category range ["Po", "Pd", "Pc"] ["Z"] []))
  let punctuation : Bool := inCategory category range [] ["P"] ["Punctuation"]
  let symbol : Bool := inCategory category range [] ["N", "S"] ["Forms"]
  let latin : Bool := hasLatinName c
  { character := c, whitespace := ws, unprintable := unprintable,
    symbol := symbol, emoticon := emoticon, commonSafe := commonSafe,
    weirdSafe := weirdSafe, punctuation := punctuation, separator := separator,
    ascii := ascii, asciiAlphabetic := asciiAlphabetic,
    asciiGraphic := asciiGraphic, asciiDigit := asciiDigit, latin := latin,
    alphabetic := alphabetic, accentuated := hasAccentName c,
    cjk := !latin && hasCJKName c, hangul := !latin && hasHangulName c,
    katakana := !latin && hasKatakanaName c,
    hiragana := !latin && hasHiraganaName c, thai := !latin && hasThaiName c,
    caseVariable := caseVariable, lowercase := lowercase,
    uppercase := uppercase, numeric := numeric, unicodeRange := range }

/-! ## Mess-detector plugins (`src/md.rs` lines 246-686) -/

/-- `TooManySymbolOrPunctuationPlugin` state. -/
structure P1State where
  punctuationCount : Nat
  symbolCount : Nat
  characterCount : Nat
  lastPrintableChar : Option MessDetectorCharQ

def P1State.init : P1State := ⟨0, 0, 0, none⟩

def P1State.feed (st : P1State) (mc : MessDetectorCharQ) : P1State :=
  let isRepeat := match st.lastPrintableChar with
    | none => false
    | some l => decide (l.character = mc.character)
  let st := { st with characterCount := st.characterCount + 1 }
  let st :=
    if !isRepeat && !mc.commonSafe then
      if mc.punctuation then
        { st with punctuationCount := st.punctuationCount + 1 }
      else if !mc.numeric && mc.symbol && !mc.emoticon then
        { st with symbolCount := st.symbolCount + 2 }
      else st
    else st
  { st with lastPrintableChar := some mc }

def P1State.ratio (st : P1State) : Q :=
  if st.characterCount = 0 then Q.ofInt 0
  else
    let r := Q.div (Q.ofNat (st.punctuationCount + st.symbolCount))
      (Q.ofNat st.characterCount)
    if Q.le (Q.mk2 3 10) r then r else Q.ofInt 0

/-- `TooManyAccentuatedPlugin` state. -/
structure P2State where
  characterCount : Nat
  accentuatedCount : Nat

def P2State.init : P2State := ⟨0, 0⟩

def P2State.feed (st : P2State) (mc : MessDetectorCharQ) : P2State :=
  { st with
    characterCount := st.characterCount + 1
    accentuatedCount :=
      if mc.accentuated then st.accentuatedCount + 1 else st.accentuatedCount }

def P2State.ratio (st : P2State) : Q :=
  if 8 ≤ st.characterCount then
    let r := Q.div (Q.ofNat st.accentuatedCount) (Q.ofNat st.characterCount)
    if Q.le (Q.mk2 35 100) r then r else Q.ofInt 0
  else Q.ofInt 0

/-- `UnprintablePlugin` state. -/
structure P3State where
  characterCount : Nat
  unprintableCount : Nat

def P3State.init : P3State := ⟨0, 0⟩

def P3State.feed (st : P3State) (mc : MessDetectorCharQ) : P3State :=
  { characterCount := st.characterCount + 1,
    unprintableCount :=
      if mc.unprintable then st.unprintableCount + 1 else st.unprintableCount }

def P3State.ratio (st : P3State) : Q :=
  if st.characterCount = 0 then Q.ofInt 0
  else Q.div (Q.ofNat (st.unprintableCount * 8)) (Q.ofNat st.characterCount)

/-- `SuspiciousDuplicateAccentPlugin` state. -/
structure P4State where
  characterCount : Nat
  successiveCount : Nat
  lastLatinCharacter : Option MessDetectorCharQ

def P4State.init : P4State := ⟨0, 0, none⟩

def P4State.feed (st : P4State) (mc : MessDetectorCharQ) : P4State :=
  let st := { st with characterCount := st.characterCount + 1 }
  let st :=
    match st.lastLatinCharacter with
    | some l =>
      if mc.accentuated && l.accentuated then
        let st :=
          if mc.uppercase && l.uppercase then
            { st with successiveCount := st.successiveCount + 1 }
          else st
        if decide (removeAccent mc.character = removeAccent l.character) then
          { st with successiveCount := st.successiveCount + 1 }
        else st
      else st
    | none => st
  { st with lastLatinCharacter := some mc }

def P4State.ratio (st : P4State) : Q :=
  if st.characterCount = 0 then Q.ofInt 0
  else Q.div (Q.ofNat (st.successiveCount * 2)) (Q.ofNat st.characterCount)

/-- `SuspiciousRangePlugin` state. -/
structure P5State where
  characterCount : Nat
  suspiciousSuccessiveRangeCount : Nat
  lastPrintableChar : Option MessDetectorCharQ

def P5State.init : P5State := ⟨0, 0, none⟩

def P5State.feed (st : P5State) (mc : MessDetectorCharQ) : P5State :=
  let st := { st with characterCount := st.characterCount + 1 }
  if mc.whitespace || mc.punctuation || mc.commonSafe then
    { st with lastPrintableChar := none }
  else
    match st.lastPrintableChar with
    | none => { st with lastPrintableChar := some mc }
    | some l =>
      let st :=
        if isSuspiciouslySuccessiveRange l.unicodeRange mc.unicodeRange then
          { st with suspiciousSuccessiveRangeCount :=
              st.suspiciousSuccessiveRangeCount + 1 }
        else st
      { st with lastPrintableChar := some mc }

def P5State.ratio (st : P5State) : Q :=
  if 0 < st.characterCount then
    let r := Q.div (Q.ofNat (st.suspiciousSuccessiveRangeCount * 2))
      (Q.ofNat st.characterCount)
    if Q.le (Q.mk2 1 10) r then r else Q.ofInt 0
  else Q.ofInt 0

/-- `SuperWeirdWordPlugin` state. -/
structure P6State where
  characterCount : Nat
  wordCount : Nat
  badWordCount : Nat
  foreignLongCount : Nat
  isCurrentWordBad : Bool
  foreignLongWatch : Bool
  badCharacterCount : Nat
  bufferAccentCount : Nat
  buffer : List MessDetectorCharQ

def P6State.init : P6State := ⟨0, 0, 0, 0, false, false, 0, 0, []⟩

def P6State.feed (st : P6State) (mc : MessDetectorCharQ) : P6State :=
  if mc.asciiAlphabetic then
    { st with
      buffer := st.buffer ++ [mc]
      bufferAccentCount :=
        if mc.accentuated then st.bufferAccentCount + 1 else st.bufferAccentCount
      foreignLongWatch := st.foreignLongWatch ||
        ((!mc.latin || mc.accentuated) && !mc.cjk && !mc.hangul &&
          !mc.katakana && !mc.hiragana && !mc.thai) }
  else if st.buffer.isEmpty then st
  else if mc.whitespace || mc.punctuation || mc.separator then
    let bufferLength := st.buffer.length
    let st := { st with
      wordCount := st.wordCount + 1
      characterCount := st.characterCount + bufferLength }
    let st :=
      if 4 ≤ bufferLength then
        let st :=
          if Q.lt (Q.mk2 34 100)
              (Q.div (Q.ofNat st.bufferAccentCount) (Q.ofNat bufferLength)) then
            { st with isCurrentWordBad := true }
          else st
        match st.buffer.getLast? with
        | some lastChar =>
          if lastChar.accentuated && lastChar.uppercase then
            { st with
              foreignLongCount := st.foreignLongCount + 1
              isCurrentWordBad := true }
          else st
        | none => st
      else st
    let st :=
      if 24 ≤ bufferLength && st.foreignLongWatch then
        let uppercaseCount := (st.buffer.filter (fun x => x.uppercase)).length
        let probableCamelCased : Bool :=
          0 < uppercaseCount ∧
          Q.le (Q.div (Q.ofNat uppercaseCount) (Q.ofNat bufferLength)) (Q.mk2 3 10)
        if !probableCamelCased then
          { st with
            foreignLongCount := st.foreignLongCount + 1
            isCurrentWordBad := true }
        else st
      else st
    let st :=
      if st.isCurrentWordBad then
        { st with
          badWordCount := st.badWordCount + 1
          badCharacterCount := st.badCharacterCount + st.buffer.length
          isCurrentWordBad := false }
      else st
    { st with foreignLongWatch := false, buffer := [], bufferAccentCount := 0 }
  else if !mc.weirdSafe && !mc.asciiDigit && mc.symbol then
    { st with isCurrentWordBad := true, buffer := st.buffer ++ [mc] }
  else st

def P6State.ratio (st : P6State) : Q :=
  if st.wordCount ≤ 10 ∧ st.foreignLongCount = 0 then Q.ofInt 0
  else Q.div (Q.ofNat st.badCharacterCount) (Q.ofNat st.characterCount)

/-- `CjkInvalidStopPlugin` state. -/
structure P7State where
  wrongStopCount : Nat
  cjkCharacterCount : Nat

def P7State.init : P7State := ⟨0, 0⟩

def P7State.feed (st : P7State) (mc : MessDetectorCharQ) : P7State :=
  if mc.character = '丅' ∨ mc.character = '丄' then
    { st with wrongStopCount := st.wrongStopCount + 1 }
  else if mc.cjk then
    { st with cjkCharacterCount := st.cjkCharacterCount + 1 }
  else st

def P7State.ratio (st : P7State) : Q :=
  if st.cjkCharacterCount < 16 then Q.ofInt 0
  else Q.div (Q.ofNat st.wrongStopCount) (Q.ofNat st.cjkCharacterCount)

/-- `ArchaicUpperLowerPlugin` state. -/
structure P8State where
  buf : Bool
  currentAsciiOnly : Bool
  characterCountSinceLastSep : Nat
  successiveUpperLowerCount : Nat
  successiveUpperLowerCountFinal : Nat
  characterCount : Nat
  lastAlphaSeen : Option MessDetectorCharQ

def P8State.init : P8State := ⟨false, true, 0, 0, 0, 0, none⟩

def P8State.feed (st : P8State) (mc : MessDetectorCharQ) : P8State :=
  if !(mc.alphabetic && mc.caseVariable) && 0 < st.characterCountSinceLastSep then
    let st :=
      if st.characterCountSinceLastSep ≤ 64 && !mc.asciiDigit &&
          !st.currentAsciiOnly then
        { st with successiveUpperLowerCountFinal :=
            st.successiveUpperLowerCountFinal + st.successiveUpperLowerCount }
      else st
    { st with
      successiveUpperLowerCount := 0
      characterCountSinceLastSep := 0
      lastAlphaSeen := none
      buf := false
      characterCount := st.characterCount + 1
      currentAsciiOnly := true }
  else
    let st := { st with currentAsciiOnly := st.currentAsciiOnly && mc.ascii }
    let st :=
      match st.lastAlphaSeen with
      | some l =>
        if (mc.uppercase && l.lowercase) || (mc.lowercase && l.uppercase) then
          if st.buf then
            { st with
              successiveUpperLowerCount := st.successiveUpperLowerCount + 2
              buf := false }
          else { st with buf := true }
        else { st with buf := false }
      | none => st
    { st with
      characterCount := st.characterCount + 1
      characterCountSinceLastSep := st.characterCountSinceLastSep + 1
      lastAlphaSeen := some mc }

def P8State.ratio (st : P8State) : Q :=
  if st.characterCount = 0 then Q.ofInt 0
  else Q.div (Q.ofNat st.successiveUpperLowerCountFinal)
    (Q.ofNat st.characterCount)

/-- The eight plugin states, in the order of the `detectors` vector of
`mess_ratio` (`src/md.rs` lines 695-704). -/
structure MDState where
  p1 : P1State
  p2 : P2State
  p3 : P3State
  p5 : P5State
  p4 : P4State
  p6 : P6State
  p7 : P7State
  p8 : P8State

def MDState.init : MDState :=
  ⟨P1State.init, P2State.init, P3State.init, P5State.init, P4State.init,
   P6State.init, P7State.init, P8State.init⟩

/-- Feed a character to every eligible plugin (`src/md.rs` lines 719-723);
eligibility is each plugin's `eligible` method. -/
def MDState.feed (st : MDState) (mc : MessDetectorCharQ) : MDState :=
  { p1 := if !mc.unprintable then st.p1.feed mc else st.p1,
    p2 := if mc.alphabetic then st.p2.feed mc else st.p2,
    p3 := st.p3.feed mc,
    p5 := if !mc.unprintable then st.p5.feed mc else st.p5,
    p4 := if mc.alphabetic && mc.latin then st.p4.feed mc else st.p4,
    p6 := st.p6.feed mc,
    p7 := st.p7.feed mc,
    p8 := st.p8.feed mc }

/-- Sum of the plugin ratios, in the `detectors` order
(`src/md.rs` line 728). -/
def MDState.sumRatios (st : MDState) : Q :=
  Q.add st.p1.ratio (Q.add st.p2.ratio (Q.add st.p3.ratio (Q.add st.p5.ratio
    (Q.add st.p4.ratio (Q.add st.p6.ratio (Q.add st.p7.ratio st.p8.ratio))))))

/-- The character loop of `mess_ratio` (`src/md.rs` lines 713-733): feed each
indexed character, recompute the sum at the checkpoints
(`index > 0 ∧ index % P = 0`, or `index = length`, the sentinel position) and
return early as soon as the sum reaches the threshold. -/
def messRatioGo (t : Q) (length P : Nat) :
    List (Nat × Char) → MDState → Q → Q
  | [], _, acc => acc
  | (i, ch) :: rest, st, acc =>
    let st := st.feed (newMessDetectorChar ch)
    if (0 < i ∧ i % P = 0) ∨ i = length then
      let m := st.sumRatios
      if Q.le t m then m else messRatioGo t length P rest st m
    else messRatioGo t length P rest st acc

/-- `mess_ratio` (`src/md.rs` lines 689-770).  The per-string LRU cache is
omitted: it is keyed on both arguments, so it never changes the value. -/
def messRatio (s : String) (maximumThreshold : Option Q) : Q :=
  let t := maximumThreshold.getD (Q.mk2 1 5)
  let length := s.toList.length
  let P := if length ≤ 510 then 32 else if length ≤ 1023 then 64 else 128
  messRatioGo t length P (s.toList ++ ['\n']).enum MDState.init (Q.ofInt 0)

/-! ## Claim C7 -/

/-- Nine alternating ASCII symbols (`$`, `^`: general categories Sc and Sk,
both counted with weight 2 by `TooManySymbolOrPunctuationPlugin`) followed by
55 lowercase letters; 64 characters in total, so the checkpoints fall at
index 32 (33 characters fed: symbol ratio `18/33 ≈ 0.545`) and at the
sentinel index 64 (65 characters fed: symbol ratio `18/65 < 0.3`, so the
plugin reports `0` and the full sum is `0`). -/
def c7String : String :=
  "$^$^$^$^$abcdefghijklmnopqrstuvwxyzabcdefghijklmnopqrstuvwxyzabc"

/-- **C7** counterexample: the early exit is *not* monotone in the claimed
direction.  With threshold `t = 1/2`, `mess_ratio(c7String, 1/2)` returns the
intermediate checkpoint value `6/11 ≥ 1/2` (early exit at index 32), but the
fully computed `mess_ratio(c7String, 1.0)` is `0 < 1/2`: the claimed
implication `mess_ratio(s, t) ≥ t ⇒ mess_ratio(s, 1.0) ≥ t` fails at
`s = c7String`, `t = 1/2`. -/
theorem c7_early_exit_not_monotone :
    Q.le (Q.mk2 1 2) (messRatio c7String (some (Q.mk2 1 2))) ∧
    Q.lt (messRatio c7String (some (Q.ofInt 1))) (Q.mk2 1 2) := by
  exact ⟨by decide, by decide⟩

/-- Two runs of the `mess_ratio` character loop that differ only in the
threshold: the run with the lower threshold either returns the same value as
the other run, or exits early with a value at or above its threshold. -/
theorem messRatioGo_le_or_eq (t u : Q) (htu : Q.le t u) (length P : Nat) :
    ∀ (l : List (Nat × Char)) (st : MDState) (acc : Q),
      messRatioGo t length P l st acc = messRatioGo u length P l st acc ∨
      Q.le t (messRatioGo t length P l st acc)
  | [], _, _ => Or.inl rfl
  | (i, ch) :: rest, st, acc => by
    simp only [messRatioGo]
    split
    · by_cases hu : Q.le u (MDState.feed st (newMessDetectorChar ch)).sumRatios
      · rw [if_pos (Q.le_trans htu hu), if_pos hu]
        exact Or.inl rfl
      · by_cases ht : Q.le t (MDState.feed st (newMessDetectorChar ch)).sumRatios
        · rw [if_pos ht, if_neg hu]
          exact Or.inr ht
        · rw [if_neg ht, if_neg hu]
          exact messRatioGo_le_or_eq t u htu length P rest _ _
    · exact messRatioGo_le_or_eq t u htu length P rest _ acc

/-- **C7** (amended): the early exit can only *over*-report mess — the
implication holds in the converse direction: for every string `s` and every
threshold `t ≤ 1`, if the fully computed ratio `mess_ratio(s, 1.0)` is at
least `t`, then `mess_ratio(s, t) ≥ t`.  (The direction stated by the claim
fails, see the counterexample.) -/
theorem c7_amended_full_ratio_implies_early_exit (s : String) (t : Q)
    (h1 : Q.le t (Q.ofInt 1)) (h2 : Q.le t (messRatio s (some (Q.ofInt 1)))) :
    Q.le t (messRatio s (some t)) := by
  unfold messRatio at h2 ⊢
  simp only [Option.getD] at h2 ⊢
  rcases messRatioGo_le_or_eq t (Q.ofInt 1) h1 s.toList.length
      (if s.toList.length ≤ 510 then 32
        else if s.toList.length ≤ 1023 then 64 else 128)
      (s.toList ++ ['\n']).enum MDState.init (Q.ofInt 0) with heq | hle
  · rw [heq]; exact h2
  · exact hle

/-- **C7** witness: the amended theorem applied at `s = ""`, `t = 0`. -/
theorem c7_amended_witness :
    Q.le (Q.ofInt 0) (Q.ofInt 1) ∧
    Q.le (Q.ofInt 0) (messRatio "" (some (Q.ofInt 1))) ∧
    Q.le (Q.ofInt 0) (messRatio "" (some (Q.ofInt 0))) :=
  ⟨by decide, by decide,
    c7_amended_full_ratio_implies_early_exit "" (Q.ofInt 0) (by decide) (by decide)⟩

/-! ## Coherence detector (`src/cd.rs`)

The intermediate maps of `src/cd.rs` are `std::collections::HashMap`s, whose
iteration order is arbitrary (each map gets a fresh random hash seed).  They
are embedded as insertion-ordered association lists together with a
`HashOrder` record of reordering functions applied wherever the source
iterates a map (`keys()`, `values()`, `into_iter()`); instantiating the
record with different permutations reproduces the different admissible
executions. -/

/-- The hash-map iteration orders used by one execution: `ranges` for the
layer map of `alpha_unicode_split`, `langs` for the score map of
`filter_alt_coherence_matches`, `langScores` for the score-list map of
`merge_coherence_ratios`. -/
structure HashOrder where
  ranges : List (String × String) → List (String × String)
  langs : List (Language × Q) → List (Language × Q)
  langScores : List (Language × List Q) → List (Language × List Q)

/-- The identity iteration order (one admissible execution). -/
def hoId : HashOrder := ⟨id, id, id⟩

/-- An execution whose `filter_alt_coherence_matches` map iterates in
reversed insertion order (another admissible execution: each `HashMap` has
its own random seed). -/
def hoRevLangs : HashOrder := ⟨id, List.reverse, id⟩

/-- `char::to_lowercase` (modelled: ASCII; every non-ASCII character
exercised below is already lowercase). -/
def toLowerStr (c : Char) : String :=
  if 0x41 ≤ c.toNat ∧ c.toNat ≤ 0x5A then String.mk [Char.ofNat (c.toNat + 32)]
  else String.mk [c]

/-- `*layers.entry(key).or_insert(String::new()) += s` over the
insertion-ordered association list. -/
def updateLayer : List (String × String) → String → String → List (String × String)
  | [], key, s => [(key, s)]
  | (k, v) :: rest, key, s =>
    if k = key then (k, v ++ s) :: rest else (k, v) :: updateLayer rest key s

/-- One character step of `alpha_unicode_split` (`src/cd.rs` lines 144-166):
skip non-alphabetic characters, find the first discovered layer (in map
iteration order) whose range is not suspicious with the character's range,
else open a new layer, and append the lowercased character. -/
def alphaSplitStep (ho : HashOrder) (layers : List (String × String))
    (ch : Char) : List (String × String) :=
  if !(isAlphabeticUCD ch) then layers
  else
    match unicodeRangeOf ch with
    | none => layers
    | some characterRange =>
      let found := (ho.ranges layers).find?
        (fun kv => !(isSuspiciouslySuccessiveRange (some kv.1) (some characterRange)))
      let key := (found.map Prod.fst).getD characterRange
      updateLayer layers key (toLowerStr ch)

/-- `alpha_unicode_split` (`src/cd.rs` lines 141-168); the final
`layers.values()` is read in map iteration order. -/
def alphaUnicodeSplit (ho : HashOrder) (s : String) : List String :=
  (ho.ranges (s.toList.foldl (alphaSplitStep ho) [])).map Prod.snd

/-- Character tally in first-encounter order (the `Counter` collection). -/
def tallyChars : List Char → List (Char × Nat) → List (Char × Nat)
  | [], acc => acc
  | c :: rest, acc =>
    let acc := if acc.any (fun kv => kv.1 = c) then
        acc.map (fun kv => if kv.1 = c then (kv.1, kv.2 + 1) else kv)
      else acc ++ [(c, 1)]
    tallyChars rest acc

/-- The comparator of `Counter::most_common_ordered`: descending count,
ties broken by ascending character (the key's `Ord`). -/
def mostCommonCmp (a b : Char × Nat) : Ordering :=
  if b.2 < a.2 then .lt
  else if a.2 < b.2 then .gt
  else if a.1 < b.1 then .lt
  else if a.1 = b.1 then .eq
  else .gt

/-- `layer.chars().collect::<Counter<_>>().most_common_ordered()` mapped to
its characters (`src/cd.rs` lines 245-246): characters by descending
occurrence count, ties by ascending character. -/
def counterOrdered (s : String) : List Char :=
  (sortByCmp mostCommonCmp (tallyChars s.toList [])).map Prod.fst

/-- `get_language_data` (`src/utils.rs` lines 511-518): first `LANGUAGES`
entry for the language. -/
def getLanguageData (language : Language) :
    Except String (String × Bool × Bool) :=
  match LANGUAGES.find? (fun e => decide (e.1 = language)) with
  | some e => .ok e.2
  | none => .error "Language was not found"

/-- The Jaro similarity of `strsim::jaro` (an external dependency of
`characters_popularity_compare`): match window
`max(|a|,|b|)/2 − 1`, matches consumed left to right, transposition counted
when a match lands left of the previous one. -/
def jaro (a b : List Char) : Q :=
  let aLen := a.length
  let bLen := b.length
  if aLen = 0 ∧ bLen = 0 then Q.ofInt 1
  else if aLen = 0 ∨ bLen = 0 then Q.ofInt 0
  else if aLen = 1 ∧ bLen = 1 then
    (if a = b then Q.ofInt 1 else Q.ofInt 0)
  else
    let searchRange := max aLen bLen / 2 - 1
    let bIdx := b.enum
    let final := a.enum.foldl
      (fun (state : List Bool × Nat × Nat × Nat) (ia : Nat × Char) =>
        let consumed := state.1
        let matchCount := state.2.1
        let transpositionCount := state.2.2.1
        let bMatchIndex := state.2.2.2
        let minBound := if searchRange < ia.1 then ia.1 - searchRange else 0
        let maxBound := min (bLen - 1) (ia.1 + searchRange)
        if maxBound < minBound then state
        else
          match bIdx.find? (fun jb =>
              decide (minBound ≤ jb.1 ∧ jb.1 ≤ maxBound) &&
              decide (jb.2 = ia.2) && !(consumed.getD jb.1 false)) with
          | none => state
          | some jb =>
            (consumed.set jb.1 true, matchCount + 1,
              (if jb.1 < bMatchIndex then transpositionCount + 1
                else transpositionCount),
              jb.1))
      (List.replicate bLen false, 0, 0, 0)
    let matchCount := final.2.1
    let transpositionCount := final.2.2.1
    if matchCount = 0 then Q.ofInt 0
    else
      Q.mul (Q.mk2 1 3)
        (Q.add (Q.div (Q.ofNat matchCount) (Q.ofNat aLen))
          (Q.add (Q.div (Q.ofNat matchCount) (Q.ofNat bLen))
            (Q.div (Q.ofNat (matchCount - transpositionCount))
              (Q.ofNat matchCount))))

/-- `characters_popularity_compare` (`src/cd.rs` lines 175-181). -/
def charactersPopularityCompare (language : Language)
    (orderedCharacters : List Char) : Except String Q :=
  (getLanguageData language).map (fun d => jaro orderedCharacters d.1.toList)

/-- `round_float` (referenced by `src/cd.rs` and `src/entity.rs`; the helper
is not under `src/`): round to `digits` decimal places, halves away from zero
(`f32::round`). -/
def roundFloat (q : Q) (digits : Nat) : Q :=
  let p : Nat := 10 ^ digits
  let scaledNum : Int := q.num * (p : Int)
  let n : Int :=
    if 0 ≤ scaledNum then
      ((2 * scaledNum.toNat + q.den.toNat) / (2 * q.den.toNat) : Nat)
    else
      -(((2 * scaledNum.natAbs + q.den.toNat) / (2 * q.den.toNat) : Nat) : Int)
  ⟨n, (p : Int), by positivity⟩

/-- `alphabet_languages` (`src/cd.rs` lines 106-136). -/
def alphabetLanguages (characters : List Char) (ignoreNonLatin : Bool) :
    List Language :=
  let sourceHasAccents := characters.any hasAccentName
  let keep := LANGUAGES.foldl
    (fun (acc : List (Language × Q)) entry =>
      let (language, languageCharacters, targetHaveAccents, targetPureLatin) := entry
      if (ignoreNonLatin && !targetPureLatin) ||
          (!targetHaveAccents && sourceHasAccents) then acc
      else
        let languageSet := languageCharacters.toList.dedup
        let intersection := languageSet.filter (fun c => characters.contains c)
        let ratio := Q.div (Q.ofNat intersection.length) (Q.ofNat languageSet.length)
        if Q.le (Q.mk2 2 10) ratio then acc ++ [(language, ratio)] else acc)
    []
  (sortByCmp (fun a b => qcmp b.2 a.2) keep).map Prod.fst

/-- The candidate loop over one layer's languages (`src/cd.rs` lines
258-276): skip scores below the threshold, bump `sufficient_match_count` at
`0.8`, record the rounded score, and `break` — out of this inner loop only —
once the count reaches 3. -/
def scanLayerLangs (threshold : Q) (popular : List Char) :
    List Language → List CoherenceMatchQ → Nat →
    Except String (List CoherenceMatchQ × Nat)
  | [], results, suff => .ok (results, suff)
  | language :: rest, results, suff =>
    match charactersPopularityCompare language popular with
    | .error e => .error e
    | .ok ratio =>
      if Q.lt ratio threshold then scanLayerLangs threshold popular rest results suff
      else
        let suff2 := if Q.le (Q.mk2 8 10) ratio then suff + 1 else suff
        let results2 := results ++ [⟨language, roundFloat ratio 4⟩]
        if 3 ≤ suff2 then .ok (results2, suff2)
        else scanLayerLangs threshold popular rest results2 suff2

/-- The layer loop of `coherence_ratio` (`src/cd.rs` lines 241-277): small
layers are skipped; `sufficient_match_count` carries across layers, and the
loop itself always proceeds to the next layer (the `break` of the source is
inside the language loop). -/
def coherenceLayersLoop (threshold : Q) (includeLangs : List Language)
    (ignoreNonLatin : Bool) :
    List String → List CoherenceMatchQ → Nat →
    Except String (List CoherenceMatchQ)
  | [], results, _ => .ok results
  | layer :: rest, results, suff =>
    if layer.toList.length ≤ TOO_SMALL_SEQUENCE then
      coherenceLayersLoop threshold includeLangs ignoreNonLatin rest results suff
    else
      let popular := counterOrdered layer
      let languages :=
        if includeLangs.isEmpty then alphabetLanguages popular ignoreNonLatin
        else includeLangs
      match scanLayerLangs threshold popular languages results suff with
      | .error e => .error e
      | .ok (results2, suff2) =>
        coherenceLayersLoop threshold includeLangs ignoreNonLatin rest results2 suff2

/-- `filter_alt_coherence_matches` (`src/cd.rs` lines 185-195): per-language
maximum score, read back in map iteration order. -/
def filterAltCoherenceMatches (ho : HashOrder) (results : List CoherenceMatchQ) :
    List CoherenceMatchQ :=
  let index := results.foldl
    (fun (index : List (Language × Q)) r =>
      if index.any (fun kv => kv.1 = r.language) then
        index.map (fun kv =>
          if kv.1 = r.language then
            (kv.1, if Q.le kv.2 r.score then r.score else kv.2)
          else kv)
      else index ++ [(r.language, r.score)])
    []
  (ho.langs index).map (fun kv => ⟨kv.1, kv.2⟩)

/-- `coherence_ratio` (`src/cd.rs` lines 225-281).  The LRU cache is omitted
(it is keyed on all three arguments). -/
def coherenceRatio (ho : HashOrder) (decodedSequence : String)
    (threshold : Option Q) (includeLanguages : Option (List Language)) :
    Except String (List CoherenceMatchQ) :=
  let threshold := threshold.getD (Q.mk2 1 10)
  let include0 := includeLanguages.getD []
  let ignoreNonLatin :=
    decide (include0.length = 1) && decide (include0.head? = some Language.Unknown)
  let include1 := if ignoreNonLatin then [] else include0
  match coherenceLayersLoop threshold include1 ignoreNonLatin
      (alphaUnicodeSplit ho decodedSequence) [] 0 with
  | .error e => .error e
  | .ok results =>
    .ok (sortByCmp (fun a b => qcmp b.score a.score)
      (filterAltCoherenceMatches ho results))

/-- The layer loop as the spec words it ("break outer when it reaches 3"):
identical to `coherenceLayersLoop` except that the whole iteration stops as
soon as `sufficient_match_count` reaches 3.  This definition follows the
spec's words, for comparison with the source-derived `coherenceLayersLoop`. -/
def coherenceLayersLoopSpec (threshold : Q) (includeLangs : List Language)
    (ignoreNonLatin : Bool) :
    List String → List CoherenceMatchQ → Nat →
    Except String (List CoherenceMatchQ)
  | [], results, _ => .ok results
  | layer :: rest, results, suff =>
    if layer.toList.length ≤ TOO_SMALL_SEQUENCE then
      coherenceLayersLoopSpec threshold includeLangs ignoreNonLatin rest results suff
    else
      let popular := counterOrdered layer
      let languages :=
        if includeLangs.isEmpty then alphabetLanguages popular ignoreNonLatin
        else includeLangs
      match scanLayerLangs threshold popular languages results suff with
      | .error e => .error e
      | .ok (results2, suff2) =>
        if 3 ≤ suff2 then .ok results2
        else coherenceLayersLoopSpec threshold includeLangs ignoreNonLatin rest results2 suff2

/-- `coherence_ratio` as the spec words it: scoring stops entirely once
`sufficient_match_count` reaches 3 (no candidate of any later layer is scored
or recorded).  This definition follows the spec's words, for comparison with
the source-derived `coherenceRatio`. -/
def coherenceRatioSpec (ho : HashOrder) (decodedSequence : String)
    (threshold : Option Q) (includeLanguages : Option (List Language)) :
    Except String (List CoherenceMatchQ) :=
  let threshold := threshold.getD (Q.mk2 1 10)
  let include0 := includeLanguages.getD []
  let ignoreNonLatin :=
    decide (include0.length = 1) && decide (include0.head? = some Language.Unknown)
  let include1 := if ignoreNonLatin then [] else include0
  match coherenceLayersLoopSpec threshold include1 ignoreNonLatin
      (alphaUnicodeSplit ho decodedSequence) [] 0 with
  | .error e => .error e
  | .ok results =>
    .ok (sortByCmp (fun a b => qcmp b.score a.score)
      (filterAltCoherenceMatches ho results))

/-- `merge_coherence_ratios` (`src/cd.rs` lines 199-219): group scores by
language (map iteration order), take the mean, sort by descending score. -/
def mergeCoherenceRatios (ho : HashOrder) (results : List (List CoherenceMatchQ)) :
    List CoherenceMatchQ :=
  let index := results.foldl
    (fun (index : List (Language × List Q)) result =>
      result.foldl
        (fun (index : List (Language × List Q)) sub =>
          if index.any (fun kv => kv.1 = sub.language) then
            index.map (fun kv =>
              if kv.1 = sub.language then (kv.1, kv.2 ++ [sub.score]) else kv)
          else index ++ [(sub.language, [sub.score])])
        index)
    []
  let merge := (ho.langScores index).map (fun kv =>
    (⟨kv.1, roundFloat
        (Q.div (kv.2.foldl Q.add (Q.ofInt 0)) (Q.ofNat kv.2.length)) 4⟩ :
      CoherenceMatchQ))
  sortByCmp (fun a b => qcmp b.score a.score) merge

/-! ## Claims C5 and C10 -/

/-- 66 Basic-Latin letters: the first 11 letters of the English reference
alphabet with strictly decreasing frequencies (11, 10, …, 1), so the
popularity string is exactly `"eationsrhld"` and its Jaro score against the
English alphabet is `21/26 ≈ 0.8077 ≥ 0.8`. -/
def c5LatinLayer : String :=
  "eeeeeeeeeeeaaaaaaaaaatttttttttiiiiiiiiooooooonnnnnnsssssrrrrhhhlld"

/-- 36 Cyrillic letters: the first 8 letters of the Russian reference
alphabet with strictly decreasing frequencies (8, …, 1), so the popularity
string is exactly `"оаеинстр"` and its Jaro score against the Russian
alphabet is `10/13 ≈ 0.7692`. -/
def c5CyrLayer : String := "ооооооооаааааааееееееиииииннннсссттр"

/-- Latin layer followed by Cyrillic layer: `alpha_unicode_split` produces
two layers (the two ranges are mutually suspicious), the Latin one first in
insertion order. -/
def c5Input : String := c5LatinLayer ++ c5CyrLayer

/-- 36 Greek letters: the first 8 letters of the Greek reference alphabet
with the same frequency pattern as `c5CyrLayer`, so its Jaro score against
the Greek alphabet is exactly the same `10/13` as the Cyrillic layer's
score against Russian — an exact score tie across two languages. -/
def c10GreekLayer : String := "αααααααατττττττοοοοοοιιιιιεεεενννρρσ"

/-- Cyrillic layer followed by Greek layer. -/
def c10Input : String := c5CyrLayer ++ c10GreekLayer

instance : DecidableEq Q := fun a b =>
  if h : a.num = b.num ∧ a.den = b.den then
    isTrue (by cases a; cases b; cases h.1; cases h.2; rfl)
  else
    isFalse (by intro he; cases he; simp at h)

instance : DecidableEq CoherenceMatchQ := fun a b =>
  if h : a.language = b.language ∧ a.score = b.score then
    isTrue (by cases a; cases b; cases h.1; cases h.2; rfl)
  else
    isFalse (by intro he; cases he; simp at h)

instance {ε α : Type} [DecidableEq ε] [DecidableEq α] :
    DecidableEq (Except ε α) := fun a b =>
  match a, b with
  | .ok x, .ok y =>
    if h : x = y then isTrue (by rw [h]) else isFalse (by intro he; cases he; exact h rfl)
  | .error e, .error f =>
    if h : e = f then isTrue (by rw [h]) else isFalse (by intro he; cases he; exact h rfl)
  | .ok _, .error _ => isFalse (by intro he; cases he)
  | .error _, .ok _ => isFalse (by intro he; cases he)

/-- **C5** counterexample: on `c5Input` with candidates
`[English, English, English, Russian]`, the first (Basic Latin) layer scores
English three times at `0.8077 ≥ 0.8`, so `sufficient_match_count` reaches 3
inside the first layer — yet the Cyrillic layer is still iterated, Russian
is scored there (`0.7692`) and recorded in the result.  The spec-worded
variant (`coherenceRatioSpec`, which breaks the outer loop at 3) returns
English only: the source's `break` exits the inner candidate loop only, so
candidates of later layers are still scored and recorded, refuting the
claim. -/
theorem c5_break_exits_inner_loop_only :
    coherenceRatio hoId c5Input none
        (some [.English, .English, .English, .Russian]) =
      .ok [⟨.English, Q.mk2 8077 10000⟩, ⟨.Russian, Q.mk2 7692 10000⟩] ∧
    coherenceRatioSpec hoId c5Input none
        (some [.English, .English, .English, .Russian]) =
      .ok [⟨.English, Q.mk2 8077 10000⟩] :=
  ⟨by decide, by decide⟩

/-- **C5** (amended): once `sufficient_match_count` has reached 3, the
candidate loop of any further layer records at most one more candidate —
it breaks immediately after the first candidate whose score clears the
threshold (candidates below the threshold are still scored and skipped). -/
theorem c5_amended_saturated_layer_records_at_most_one
    (threshold : Q) (popular : List Char) :
    ∀ (langs : List Language) (results : List CoherenceMatchQ) (suff : Nat),
      3 ≤ suff → ∀ (r : List CoherenceMatchQ) (s2 : Nat),
      scanLayerLangs threshold popular langs results suff = .ok (r, s2) →
      r.length ≤ results.length + 1
  | [], results, suff, _, r, s2, heq => by
    simp only [scanLayerLangs] at heq
    cases heq
    exact Nat.le_succ _
  | language :: rest, results, suff, h3, r, s2, heq => by
    simp only [scanLayerLangs] at heq
    split at heq
    · cases heq
    · split at heq
      · exact c5_amended_saturated_layer_records_at_most_one threshold popular
          rest results suff h3 r s2 heq
      · have h32 : 3 ≤ (if Q.le (Q.mk2 8 10) ‹Q› then suff + 1 else suff) := by
          split <;> omega
        rw [if_pos h32] at heq
        cases heq
        simp

/-- **C5** witness: the amended theorem applied at a saturated count
(`sufficient_match_count = 3`) with the Cyrillic layer's popularity string
and the single candidate Russian: exactly one candidate is recorded. -/
theorem c5_amended_witness :
    (3 ≤ 3 ∧
      scanLayerLangs (Q.mk2 1 10) (counterOrdered c5CyrLayer) [.Russian] [] 3 =
        .ok ([⟨.Russian, Q.mk2 7692 10000⟩], 3)) ∧
    ([(⟨.Russian, Q.mk2 7692 10000⟩ : CoherenceMatchQ)]).length ≤
      ([] : List CoherenceMatchQ).length + 1 :=
  ⟨⟨by decide, by decide⟩,
    c5_amended_saturated_layer_records_at_most_one (Q.mk2 1 10)
      (counterOrdered c5CyrLayer) [.Russian] [] 3 (by decide)
      [⟨.Russian, Q.mk2 7692 10000⟩] 3 (by decide)⟩

/-- **C10** counterexample: on `c10Input` with candidates
`[Russian, Greek]`, the two layers produce an exact score tie
(`0.7692` for both languages).  Two admissible executions that differ only
in the iteration order of the `filter_alt_coherence_matches` hash map —
`hoId` versus `hoRevLangs` — return the two languages in different orders:
`coherence_ratio` is not deterministic across runs, because each run's
`HashMap` gets a fresh random seed and the final stable sort keeps the
map order for equal scores. -/
theorem c10_tie_order_follows_hash_order :
    coherenceRatio hoId c10Input none (some [.Russian, .Greek]) =
      .ok [⟨.Russian, Q.mk2 7692 10000⟩, ⟨.Greek, Q.mk2 7692 10000⟩] ∧
    coherenceRatio hoRevLangs c10Input none (some [.Russian, .Greek]) =
      .ok [⟨.Greek, Q.mk2 7692 10000⟩, ⟨.Russian, Q.mk2 7692 10000⟩] :=
  ⟨by decide, by decide⟩

/-- Descending-score relation on coherence matches. -/
def cmScoreGE (a b : CoherenceMatchQ) : Prop := Q.le b.score a.score

theorem Q.le_of_lt {x y : Q} (h : Q.lt x y) : Q.le x y := by
  unfold Q.lt at h; unfold Q.le; omega

theorem qcmp_eq_gt_lt {x y : Q} (h : qcmp x y = .gt) : Q.lt y x := by
  by_cases h1 : Q.lt x y
  · simp [qcmp, h1] at h
  · by_cases h2 : Q.eqv x y
    · simp [qcmp, h1, h2] at h
    · unfold Q.lt Q.eqv at *
      omega

theorem qcmp_ne_gt_le {x y : Q} (h : ¬ qcmp x y = .gt) : Q.le x y := by
  by_cases h1 : Q.lt x y
  · unfold Q.lt at h1; unfold Q.le; omega
  · by_cases h2 : Q.eqv x y
    · unfold Q.eqv at h2; unfold Q.le; omega
    · exact absurd (by simp [qcmp, h1, h2]) h

theorem mem_insertByCmp {α} (cmp : α → α → Ordering) (a x : α) :
    ∀ l : List α, x ∈ insertByCmp cmp a l ↔ x = a ∨ x ∈ l
  | [] => by simp [insertByCmp]
  | b :: t => by
    simp only [insertByCmp]
    split
    · simp only [List.mem_cons, mem_insertByCmp cmp a x t]
      tauto
    · simp only [List.mem_cons]

theorem insert_desc_sorted (a : CoherenceMatchQ) (l : List CoherenceMatchQ)
    (hl : l.Pairwise cmScoreGE) :
    (insertByCmp (fun a b => qcmp b.score a.score) a l).Pairwise cmScoreGE := by
  induction l with
  | nil => simp [insertByCmp]
  | cons b t ih =>
    rcases List.pairwise_cons.mp hl with ⟨hb, ht⟩
    simp only [insertByCmp]
    split
    · refine List.pairwise_cons.mpr ⟨?_, ih ht⟩
      intro x hx
      rcases (mem_insertByCmp _ a x t).mp hx with rfl | hxt
      · exact Q.le_of_lt (qcmp_eq_gt_lt ‹_›)
      · exact hb x hxt
    · refine List.pairwise_cons.mpr ⟨?_, hl⟩
      intro x hx
      rcases List.mem_cons.mp hx with rfl | hxt
      · exact qcmp_ne_gt_le ‹_›
      · exact Q.le_trans (hb x hxt) (qcmp_ne_gt_le ‹_›)

theorem sortByCmp_desc_sorted (l : List CoherenceMatchQ) :
    (sortByCmp (fun a b => qcmp b.score a.score) l).Pairwise cmScoreGE := by
  induction l with
  | nil => simp [sortByCmp]
  | cons a t ih => exact insert_desc_sorted a _ ih

/-- **C10** (amended): `coherence_ratio` is deterministic only up to the
iteration order of its intermediate hash maps — the counterexample shows two
admissible orders reversing an exact score tie; what holds for *every*
admissible iteration order is that the returned list is sorted by descending
score. -/
theorem c10_amended_output_sorted_for_every_order (ho : HashOrder) (s : String)
    (threshold : Option Q) (includeLanguages : Option (List Language))
    (r : List CoherenceMatchQ)
    (h : coherenceRatio ho s threshold includeLanguages = .ok r) :
    r.Pairwise cmScoreGE := by
  simp only [coherenceRatio] at h
  split at h
  · cases h
  · cases h
    exact sortByCmp_desc_sorted _

/-- **C10** witness: the amended theorem applied at the empty string with
the identity iteration order. -/
theorem c10_amended_witness :
    coherenceRatio hoId "" none none = .ok [] ∧
    ([] : List CoherenceMatchQ).Pairwise cmScoreGE :=
  ⟨by decide, c10_amended_output_sorted_for_every_order hoId "" none none []
    (by decide)⟩

/-! ## Chunk-tolerant decoding (`src/utils.rs` lines 316-437) -/

/-- `CodecError` of the external `encoding` crate: the error cause and the
offset. -/
structure CodecErrQ where
  cause : String
  upto : Int

/-- A raw decoder (`decode_to` over one window, `src/utils.rs` lines
404-437): the text written to the string writer and the error, if any.  The
decoders themselves are external collaborators (the codec table is out of
scope per spec section 1); concrete ones are supplied below for the
encodings the evaluations exercise. -/
def DecodeOracle : Type := List Nat → String × Option CodecErrQ

/-- `&input[b..e]`. -/
def listSlice (l : List Nat) (b e : Nat) : List Nat := (l.drop b).take (e - b)

/-- The retry loop of `decode` (`src/utils.rs` lines 371-395), with the final
window offsets exposed.  On a strict decode of a chunk with a multi-byte
encoding, an "invalid sequence" error advances the start offset and an
"incomplete sequence" error retracts the end offset; the loop stops on
success, when the window size drops below 1, or when more than 3 bytes have
been shaved from either side.  `fuel` bounds the number of iterations; the
termination theorem below shows that fuel 12 is never exhausted when the
decoder only reports the two error kinds.  The string buffer accumulates
across retries exactly as the single `DecodeTestResult` writer of the source
does. -/
def decodeLoopAux (dec : DecodeOracle) (mb strict isChunk onlyTest : Bool)
    (input : List Nat) :
    Nat → Nat → Nat → String → Option (Except String String × Nat × Nat)
  | 0, _, _, _ => none
  | fuel + 1, b, e, buf =>
    let res := dec (listSlice input b e)
    let buf2 := if onlyTest then buf else buf ++ res.1
    match res.2 with
    | none => some (.ok buf2, b, e)
    | some err =>
      if strict then
        if !isChunk || !mb then
          some (.error (err.cause ++ " at index " ++ toString err.upto), b, e)
        else
          let b2 := if strContainsStr err.cause "invalid sequence" then b + 1 else b
          let e2 :=
            if !(strContainsStr err.cause "invalid sequence") &&
                strContainsStr err.cause "incomplete sequence" then e - 1
            else e
          if e2 - b2 < 1 ∨ 3 < b2 ∨ 3 < input.length - e2 then
            some (.error (err.cause ++ " at index " ++ toString err.upto), b2, e2)
          else decodeLoopAux dec mb strict isChunk onlyTest input fuel b2 e2 buf2
      else
        some (.error (err.cause ++ " at index " ++ toString err.upto), b, e)

/-- **C9**: for every input byte slice, every decoder that reports only the
two error kinds of the external codecs ("invalid sequence" / "incomplete
sequence"), and any `only_test` mode, the strict chunk-mode retry loop of
`decode` for a multi-byte encoding terminates (fuel 12 is never exhausted),
its final window never shaves more than 4 bytes on either side (the loop
stops as soon as shrinkage exceeds 3 or the window empties), and a
*successful* decode comes from a window shaved by at most 3 bytes at the
start and at most 3 bytes at the end. -/
theorem c9_decode_chunk_retry_terminates (dec : DecodeOracle)
    (input : List Nat) (onlyTest : Bool)
    (hc : ∀ w er, (dec w).2 = some er →
      strContainsStr er.cause "invalid sequence" = true ∨
      strContainsStr er.cause "incomplete sequence" = true) :
    ∃ r b e,
      decodeLoopAux dec true true true onlyTest input 12 0 input.length "" =
        some (r, b, e) ∧ b ≤ 4 ∧ input.length - e ≤ 4 ∧
      (∀ s, r = .ok s → b ≤ 3 ∧ input.length - e ≤ 3) := by
  have main : ∀ (fuel b e : Nat) (buf : String), b ≤ 3 → input.length - e ≤ 3 →
      e ≤ input.length → 9 ≤ b + (input.length - e) + fuel →
      ∃ r b2 e2,
        decodeLoopAux dec true true true onlyTest input fuel b e buf =
          some (r, b2, e2) ∧ b2 ≤ 4 ∧ input.length - e2 ≤ 4 ∧
        (∀ s, r = .ok s → b2 ≤ 3 ∧ input.length - e2 ≤ 3) := by
    intro fuel
    induction fuel with
    | zero => intro b e buf hb he hle hm; omega
    | succ fuel ih =>
      intro b e buf hb he hle hm
      simp only [decodeLoopAux]
      rcases hdec : (dec (listSlice input b e)).2 with _ | err
      · simp only [hdec]
        exact ⟨_, b, e, rfl, by omega, by omega, fun s _ => ⟨hb, he⟩⟩
      · have hkind := hc _ _ hdec
        simp only [hdec, Bool.not_true, Bool.or_self, Bool.false_or, if_true,
          ite_true, ite_false, if_false]
        rcases hinv : strContainsStr err.cause "invalid sequence" with _ | _
        · have hinc : strContainsStr err.cause "incomplete sequence" = true := by
            rcases hkind with h | h
            · rw [hinv] at h; cases h
            · exact h
          simp only [hinv, hinc, Bool.not_false, Bool.true_and, if_true,
            ite_true, ite_false, if_false, Bool.false_eq_true]
          split
          · exact ⟨_, b, e - 1, rfl, by omega, by omega, fun s hs => by cases hs⟩
          · exact ih b (e - 1) _ hb (by omega) (by omega) (by omega)
        · simp only [hinv, Bool.not_true, Bool.false_and, if_true, ite_true,
            ite_false, if_false, Bool.false_eq_true]
          split
          · exact ⟨_, b + 1, e, rfl, by omega, by omega, fun s hs => by cases hs⟩
          · exact ih (b + 1) e _ (by omega) he hle (by omega)
  exact main 12 0 input.length "" (by omega) (by omega) (by omega) (by omega)

/-- **C9** witness: the theorem applied to the always-failing decoder whose
error cause is "invalid sequence", over a five-byte input. -/
theorem c9_witness :
    (∀ w er, ((fun _ => ("", some ⟨"invalid sequence", 0⟩) : DecodeOracle) w).2 =
        some er →
      strContainsStr er.cause "invalid sequence" = true ∨
      strContainsStr er.cause "incomplete sequence" = true) ∧
    ∃ r b e,
      decodeLoopAux (fun _ => ("", some ⟨"invalid sequence", 0⟩)) true true true
          false [10, 20, 30, 40, 50] 12 0 5 "" = some (r, b, e) ∧
      b ≤ 4 ∧ 5 - e ≤ 4 ∧ (∀ s, r = .ok s → b ≤ 3 ∧ 5 - e ≤ 3) := by
  have hc : ∀ w er,
      ((fun _ => ("", some ⟨"invalid sequence", 0⟩) : DecodeOracle) w).2 =
        some er →
      strContainsStr er.cause "invalid sequence" = true ∨
      strContainsStr er.cause "incomplete sequence" = true := by
    intro w er h
    cases h
    exact Or.inl (by decide)
  exact ⟨hc, c9_decode_chunk_retry_terminates
    (fun _ => ("", some ⟨"invalid sequence", 0⟩)) [10, 20, 30, 40, 50] false hc⟩

/-! ## Codecs and label registry

The byte↔Unicode codec table and the WHATWG label registry are external
collaborators (spec section 1).  A codec is a raw strict decoder (the
`decode_to` oracle) plus a single-byte ignore-trap decoder (used by
`encoding_unicode_range`); real implementations are provided for utf-8 and
ascii — the encodings the concrete evaluations exercise — and the rest of
the table is left as a parameter. -/

/-- A codec bound to an encoding: the raw strict decoder and the
`DecoderTrap::Ignore` single-byte decoder. -/
structure CodecQ where
  raw : DecodeOracle
  ignoreByte : Nat → List Char

/-- `is_multi_byte_encoding` (`src/utils.rs` lines 231-246). -/
def isMultiByteEncoding (name : String) : Bool :=
  ["utf-8", "utf-16le", "utf-16be", "euc-jp", "euc-kr", "iso-2022-jp", "gbk",
   "gb18030", "hz", "big5", "shift_jis"].contains name

/-- A UTF-8 continuation byte. -/
def utf8Cont (x : Nat) : Bool := decide (0x80 ≤ x ∧ x ≤ 0xBF)

/-- Second-byte constraint of a three-byte UTF-8 sequence. -/
def utf8Valid2 (b b2 : Nat) : Bool :=
  if b = 0xE0 then decide (0xA0 ≤ b2 ∧ b2 ≤ 0xBF)
  else if b = 0xED then decide (0x80 ≤ b2 ∧ b2 ≤ 0x9F)
  else utf8Cont b2

/-- Second-byte constraint of a four-byte UTF-8 sequence. -/
def utf8Valid2of4 (b b2 : Nat) : Bool :=
  if b = 0xF0 then decide (0x90 ≤ b2 ∧ b2 ≤ 0xBF)
  else if b = 0xF4 then decide (0x80 ≤ b2 ∧ b2 ≤ 0x8F)
  else utf8Cont b2

/-- The strict UTF-8 decoder of the external codec table: writes the decoded
prefix and reports "invalid sequence" on a malformed byte or "incomplete
sequence" on a truncated tail, as the `encoding` crate does. -/
def utf8Go : List Nat → List Char → Nat → String × Option CodecErrQ
  | [], acc, _ => (String.mk acc.reverse, none)
  | b :: rest, acc, i =>
    if b ≤ 0x7F then utf8Go rest (Char.ofNat b :: acc) (i + 1)
    else if 0xC2 ≤ b ∧ b ≤ 0xDF then
      match rest with
      | [] => (String.mk acc.reverse, some ⟨"incomplete sequence", Int.ofNat i⟩)
      | b2 :: rest2 =>
        if utf8Cont b2 then
          utf8Go rest2 (Char.ofNat ((b - 0xC0) * 0x40 + (b2 - 0x80)) :: acc) (i + 2)
        else (String.mk acc.reverse, some ⟨"invalid sequence", Int.ofNat i⟩)
    else if 0xE0 ≤ b ∧ b ≤ 0xEF then
      match rest with
      | [] => (String.mk acc.reverse, some ⟨"incomplete sequence", Int.ofNat i⟩)
      | [b2] =>
        if utf8Valid2 b b2 then
          (String.mk acc.reverse, some ⟨"incomplete sequence", Int.ofNat i⟩)
        else (String.mk acc.reverse, some ⟨"invalid sequence", Int.ofNat i⟩)
      | b2 :: b3 :: rest3 =>
        if utf8Valid2 b b2 && utf8Cont b3 then
          utf8Go rest3
            (Char.ofNat ((b - 0xE0) * 0x1000 + (b2 - 0x80) * 0x40 + (b3 - 0x80)) :: acc)
            (i + 3)
        else (String.mk acc.reverse, some ⟨"invalid sequence", Int.ofNat i⟩)
    else if 0xF0 ≤ b ∧ b ≤ 0xF4 then
      match rest with
      | [] => (String.mk acc.reverse, some ⟨"incomplete sequence", Int.ofNat i⟩)
      | [b2] =>
        if utf8Valid2of4 b b2 then
          (String.mk acc.reverse, some ⟨"incomplete sequence", Int.ofNat i⟩)
        else (String.mk acc.reverse, some ⟨"invalid sequence", Int.ofNat i⟩)
      | [b2, b3] =>
        if utf8Valid2of4 b b2 && utf8Cont b3 then
          (String.mk acc.reverse, some ⟨"incomplete sequence", Int.ofNat i⟩)
        else (String.mk acc.reverse, some ⟨"invalid sequence", Int.ofNat i⟩)
      | b2 :: b3 :: b4 :: rest4 =>
        if utf8Valid2of4 b b2 && utf8Cont b3 && utf8Cont b4 then
          utf8Go rest4
            (Char.ofNat ((b - 0xF0) * 0x40000 + (b2 - 0x80) * 0x1000 +
              (b3 - 0x80) * 0x40 + (b4 - 0x80)) :: acc)
            (i + 4)
        else (String.mk acc.reverse, some ⟨"invalid sequence", Int.ofNat i⟩)
    else (String.mk acc.reverse, some ⟨"invalid sequence", Int.ofNat i⟩)

/-- The strict ASCII decoder (`src/utils.rs`: "validate this is pure ASCII;
fail at the first byte ≥ 0x80" per spec section 4.B). -/
def asciiGo : List Nat → List Char → Nat → String × Option CodecErrQ
  | [], acc, _ => (String.mk acc.reverse, none)
  | b :: rest, acc, i =>
    if b ≤ 0x7F then asciiGo rest (Char.ofNat b :: acc) (i + 1)
    else (String.mk acc.reverse, some ⟨"invalid sequence", Int.ofNat i⟩)

def utf8Codec : CodecQ :=
  { raw := fun input => utf8Go input [] 0,
    ignoreByte := fun b => if b ≤ 0x7F then [Char.ofNat b] else [] }

def asciiCodec : CodecQ :=
  { raw := fun input => asciiGo input [] 0,
    ignoreByte := fun b => if b ≤ 0x7F then [Char.ofNat b] else [] }

/-- The codec table with the two embedded codecs; every other encoding's
codec is supplied externally (the table is out of scope per spec
section 1). -/
def mkCodecs (other : String → Option CodecQ) : String → Option CodecQ :=
  fun name =>
    if name = "utf-8" then some utf8Codec
    else if name = "ascii" then some asciiCodec
    else other name

/-- The external table instantiated with no further codecs (sufficient for
every evaluation below: each trace returns before consulting any other
encoding's codec). -/
def codecsMin : String → Option CodecQ := mkCodecs (fun _ => none)

/-- `decode` (`src/utils.rs` lines 349-400): look the codec up, run the
retry loop (fuel 12 is never exhausted: by `c9_decode_chunk_retry_terminates`
the loop reaches a `break` within 9 iterations for the decoders' two error
kinds). -/
def decodeBytes (codecs : String → Option CodecQ) (input : List Nat)
    (fromEncoding : String) (strict onlyTest isChunk : Bool) :
    Except String String :=
  match codecs fromEncoding with
  | none => .error ("Encoding not found: " ++ fromEncoding)
  | some codec =>
    match decodeLoopAux codec.raw (isMultiByteEncoding fromEncoding) strict
        isChunk onlyTest input 12 0 input.length "" with
    | some (r, _, _) => r
    | none => .error "decoder retry loop exhausted its bound"

/-- ASCII lowercasing (`encoding_from_whatwg_label` lowercases its label). -/
def asciiLowerStr (s : String) : String :=
  String.mk (s.toList.map (fun c =>
    if 0x41 ≤ c.toNat ∧ c.toNat ≤ 0x5A then Char.ofNat (c.toNat + 32) else c))

/-- Modelled external registry: the WHATWG label→canonical-name map
(`encoding_from_whatwg_label` of the `encoding` crate), restricted to the
canonical names themselves plus a few documented aliases; unknown labels map
to `none`. -/
def encodingFromWhatwgLabel (label : String) : Option String :=
  let l := asciiLowerStr label
  if IANA_SUPPORTED.contains l then some l
  else
    (([("utf8", "utf-8"), ("unicode-1-1-utf-8", "utf-8"),
       ("us-ascii", "ascii"), ("iso-8859-1", "windows-1252"),
       ("latin1", "windows-1252"), ("l1", "windows-1252"),
       ("cyrillic", "iso-8859-5"), ("koi8", "koi8-r"), ("koi", "koi8-r"),
       ("big5-hkscs", "big5"), ("csshiftjis", "shift_jis")] :
      List (String × String)).find? (fun kv => kv.1 = l)).map (fun kv => kv.2)

/-- `iana_name` (`src/utils.rs` lines 258-266). -/
def ianaName (cpName : String) : Option String :=
  if IANA_SUPPORTED.contains cpName then some cpName
  else encodingFromWhatwgLabel cpName

/-- `&pre` is a leading block of `l`. -/
def listStartsWith : List Nat → List Nat → Bool
  | [], _ => true
  | _ :: _, [] => false
  | p :: ps, x :: xs => decide (p = x) && listStartsWith ps xs

/-- `identify_sig_or_bom` (`src/utils.rs` lines 249-255). -/
def identifySigOrBom (sequence : List Nat) :
    Option String × Option (List Nat) :=
  match ENCODING_MARKS.find? (fun m => listStartsWith m.2 sequence) with
  | some m => (some m.1, some m.2)
  | none => (none, none)

/-- ASCII decoding with `DecoderTrap::Ignore` (invalid bytes dropped), used
by `any_specified_encoding`. -/
def asciiIgnoreDecode (bytes : List Nat) : List Char :=
  bytes.filterMap (fun b => if b ≤ 0x7F then some (Char.ofNat b) else none)

/-- A character allowed in a captured encoding label
(`[a-zA-Z0-9\-_]`). -/
def isHintNameChar (c : Char) : Bool :=
  let n := c.toNat
  decide ((0x30 ≤ n ∧ n ≤ 0x39) ∨ (0x41 ≤ n ∧ n ≤ 0x5A) ∨
    (0x61 ≤ n ∧ n ≤ 0x7A) ∨ n = 0x2D ∨ n = 0x5F)

/-- Take up to 10 leading separator characters (colon, equals, space). -/
def dropHintSeps : Nat → List Char → Nat × List Char
  | _, [] => (0, [])
  | 0, l => (0, l)
  | budget + 1, c :: rest =>
    if c = ':' ∨ c = '=' ∨ c = ' ' then
      let r := dropHintSeps budget rest
      (r.1 + 1, r.2)
    else (0, c :: rest)

/-- Leading run of label characters. -/
def takeHintName : List Char → List Char × List Char
  | [] => ([], [])
  | c :: rest =>
    if isHintNameChar c then
      let r := takeHintName rest
      (c :: r.1, r.2)
    else ([], c :: rest)

/-- Modelled from the spec: one match attempt of
`RE_POSSIBLE_ENCODING_INDICATION` (the regex lives in the missing `consts`
module; spec section 4.C: `charset=…`, `encoding=…`, `coding[:=]…`,
quotes/whitespace tolerant).  At the given position: a keyword, one to ten
separator characters, an optional quote, then the captured label. -/
def matchHintAt (l : List Char) : Option (String × List Char) :=
  let afterKeyword : Option (List Char) :=
    if listLeads "charset".toList l then some (l.drop 7)
    else if listLeads "encoding".toList l then some (l.drop 8)
    else if listLeads "coding".toList l then some (l.drop 6)
    else none
  match afterKeyword with
  | none => none
  | some rest =>
    let seps := dropHintSeps 10 rest
    if seps.1 = 0 then none
    else
      let rest2 :=
        match seps.2 with
        | q :: r => if q = '"' ∨ q = '\x27' then r else seps.2
        | [] => []
      let cap := takeHintName rest2
      if cap.1.isEmpty then none else some (String.mk cap.1, cap.2)

/-- Scan for all hint captures, left to right (fuel = remaining length). -/
def scanHintsGo : Nat → List Char → List String
  | 0, _ => []
  | _ + 1, [] => []
  | fuel + 1, c :: rest =>
    match matchHintAt (c :: rest) with
    | some (name, restAfter) => name :: scanHintsGo fuel restAfter
    | none => scanHintsGo fuel rest

/-- `any_specified_encoding` (`src/utils.rs` lines 274-289): ASCII-decode
the first `search_zone` bytes with the ignore trap, scan for declarative
hints, resolve each through `iana_name`, keep the first hit. -/
def anySpecifiedEncoding (bytes : List Nat) (searchZone : Nat) : Option String :=
  let testString := asciiIgnoreDecode (bytes.take (min searchZone bytes.length))
  ((scanHintsGo testString.length testString).filterMap ianaName).head?

/-- `mb_encoding_languages` (`src/cd.rs` lines 96-102). -/
def mbEncodingLanguages (ianaNameStr : String) : List Language :=
  match ENCODING_TO_LANGUAGE.find? (fun kv => kv.1 = ianaNameStr) with
  | some kv => [kv.2]
  | none => []

/-- Lexicographic comparison of strings (`Vec<&str>::sort`). -/
def strCmp (a b : String) : Ordering :=
  if a < b then .lt else if a = b then .eq else .gt

/-- `encoding_unicode_range` (`src/cd.rs` lines 20-54): decode each byte
0x40..0xFE with the ignore trap, tally the non-secondary Unicode ranges of
the first characters, keep ranges covering at least 15 %, sorted. -/
def encodingUnicodeRange (codecs : String → Option CodecQ)
    (ianaNameStr : String) : Except String (List String) :=
  if isMultiByteEncoding ianaNameStr then
    .error "Function not supported on multi-byte code page"
  else
    match codecs ianaNameStr with
    | none => .error "No decoder found for this encoding"
    | some p =>
      let step := fun (acc : List (String × Nat) × Nat) (i : Nat) =>
        match (p.ignoreByte i).head? with
        | none => acc
        | some firstChar =>
          match unicodeRangeOf firstChar with
          | none => acc
          | some range =>
            if isUnicodeRangeSecondary range then acc
            else
              let table :=
                if acc.1.any (fun kv => kv.1 = range) then
                  acc.1.map (fun kv =>
                    if kv.1 = range then (kv.1, kv.2 + 1) else kv)
                else acc.1 ++ [(range, 1)]
              (table, acc.2 + 1)
      let r := ((List.range 0xBF).map (fun k => 0x40 + k)).foldl step ([], 0)
      let keep := r.1.filter (fun kv =>
        Q.le (Q.mk2 15 100) (Q.div (Q.ofNat kv.2) (Q.ofNat r.2)))
      .ok (sortByCmp strCmp (keep.map (fun kv => kv.1)))

/-- `unicode_range_languages` (`src/cd.rs` lines 57-70). -/
def unicodeRangeLanguages (primaryRange : String) : List Language :=
  if primaryRange.isEmpty then []
  else
    (LANGUAGES.filter (fun e =>
      e.2.1.toList.any (fun ch =>
        (unicodeRangeOf ch).getD "" = primaryRange))).map (fun e => e.1)

/-- `encoding_languages` (`src/cd.rs` lines 76-92). -/
def encodingLanguages (codecs : String → Option CodecQ)
    (ianaNameStr : String) : List Language :=
  let unicodeRanges := (encodingUnicodeRange codecs ianaNameStr).toOption.getD []
  match unicodeRanges.find? (fun r => !(strContainsStr r "Latin")) with
  | none => [.Unknown]
  | some primaryRange => unicodeRangeLanguages primaryRange

/-- Modelled from the spec: `is_invalid_chunk` is referenced by `src/lib.rs`
but absent from `src/`; per spec section 4.G.e, a decode failure makes the
chunk invalid, and for ascii any non-ASCII character does. -/
def isInvalidChunk (res : Except String String) (enc : String) : Bool :=
  match res with
  | .error _ => true
  | .ok s => enc = "ascii" && s.toList.any (fun c => 0x80 ≤ c.toNat)

/-! ## `from_bytes` (`src/lib.rs` lines 173-578) -/

/-- `NormalizerSettings` (`src/entity.rs` lines 426-443). -/
structure NormalizerSettingsQ where
  steps : Nat
  chunk_size : Nat
  threshold : Q
  include_encodings : List String
  exclude_encodings : List String
  preemptive_behaviour : Bool
  language_threshold : Q
  enable_fallback : Bool

/-- `NormalizerSettings::default` (`src/entity.rs` lines 446-458). -/
def defaultSettings : NormalizerSettingsQ :=
  ⟨5, 512, Q.mk2 2 10, [], [], true, Q.mk2 1 10, true⟩

/-- The label-normalisation maps of `from_bytes` (`src/lib.rs` lines 181 and
193): each label goes through `iana_name(e).unwrap()`, so an unresolvable
label panics — embedded as an error. -/
def resolveAllLabels : List String → Except String (List String)
  | [] => .ok []
  | e :: rest =>
    match ianaName e with
    | none => .error ("iana_name unwrap panicked on label " ++ e)
    | some n => (resolveAllLabels rest).map (fun l => n :: l)

/-- The settings re-check of `from_bytes` (`src/lib.rs` lines 177-200):
non-empty include / exclude lists are rewritten through
`iana_name(e).unwrap()`. -/
def normalizeEncodingSettings (settings : NormalizerSettingsQ) :
    Except String NormalizerSettingsQ :=
  match (if settings.include_encodings.isEmpty then .ok settings.include_encodings
         else resolveAllLabels settings.include_encodings :
         Except String (List String)) with
  | .error e => .error e
  | .ok inc =>
    match (if settings.exclude_encodings.isEmpty then .ok settings.exclude_encodings
           else resolveAllLabels settings.exclude_encodings :
           Except String (List String)) with
    | .error e => .error e
    | .ok exc =>
      .ok { settings with
        include_encodings := inc
        exclude_encodings := exc }

/-- `str::strip_prefix` with the BOM character (`src/entity.rs` line 172):
remove one leading U+FEFF if present. -/
def stripOneBOM (s : String) : String :=
  match s.toList with
  | c :: rest => if c = Char.ofNat 0xFEFF then String.mk rest else s
  | [] => s

/-- `CharsetMatch::new` (`src/entity.rs` lines 143-187): when no decoded
payload is supplied, recompute it with a strict chunk decode and strip one
leading U+FEFF; the fingerprint is set exactly when a decoded payload is
present (blake3 embedded as the decoded string itself, see
`CharsetMatchQ`). -/
def charsetMatchNew (codecs : String → Option CodecQ) (payload : List Nat)
    (encoding : String) (meanMessRatio : Q) (hasSigOrBom : Bool)
    (coherenceMatches : List CoherenceMatchQ) (decodedPayload : Option String) :
    CharsetMatchQ :=
  let decoded : Option String :=
    match decodedPayload with
    | some s => some s
    | none =>
      match decodeBytes codecs payload encoding true false true with
      | .ok res => some (stripOneBOM res)
      | .error _ => none
  { payload := payload
    encoding := encoding
    mean_mess_ratio := meanMessRatio
    coherence_matches := coherenceMatches
    has_sig_or_bom := hasSigOrBom
    fingerprint := decoded
    submatch := []
    decoded_payload := decoded }

/-- Modelled from the spec: `CharsetMatch::default` is referenced by
`src/lib.rs` line 206 but missing from `src/`; spec section 5 item 2 gives
the default match for empty input: encoding utf-8, empty decoded payload, no
BOM. -/
def defaultCharsetMatch : CharsetMatchQ :=
  { payload := []
    encoding := "utf-8"
    mean_mess_ratio := Q.ofInt 0
    coherence_matches := []
    has_sig_or_bom := false
    fingerprint := some ""
    submatch := []
    decoded_payload := some "" }

/-- `CharsetMatches::get_by_encoding` (`src/entity.rs` lines 372-378). -/
def getByEncoding (items : List CharsetMatchQ) (encoding : String) :
    Option CharsetMatchQ :=
  match ianaName encoding with
  | none => none
  | some enc => items.find? (fun i => (suitableEncodings i).contains enc)

/-- One `push_front` step of the prioritisation loop (`src/lib.rs` lines
275-280): if present, move the element to the front of the deque. -/
def moveToFront (l : List String) (x : String) : List String :=
  if l.contains x then x :: l.erase x else l

/-- `(start..stop).step_by(step)` of Rust (`step ≥ 1`). -/
def stepRange (start stop step : Nat) : List Nat :=
  (List.range ((stop - start + step - 1) / step)).map (fun k => start + k * step)

/-- The per-call context of the probe loop: the external codec table, the
`IANA_SUPPORTED_SIMILAR` relation (`is_cp_similar`, whose generated table
lives in the missing `consts` module, hence a parameter), the hash-map
iteration orders, and the values `from_bytes` fixes before the loop. -/
structure ProbeCtx where
  codecs : String → Option CodecQ
  similar : String → String → Bool
  ho : HashOrder
  bytes : List Nat
  settings : NormalizerSettingsQ
  specifiedEncoding : String
  prioritizedEncodings : List String
  sigEncoding : Option String
  sigPayload : Option (List Nat)
  isTooLargeSequence : Bool

/-- The mutable state threaded through the probe loop (`src/lib.rs` lines
283-288). -/
structure ProbeState where
  testedButHardFailure : List String
  testedButSoftFailure : List String
  fallbackAscii : Option CharsetMatchQ
  fallbackU8 : Option CharsetMatchQ
  fallbackSpecified : Option CharsetMatchQ
  results : List CharsetMatchQ

/-- The chunks loop (`src/lib.rs` lines 386-429): returns the collected
chunks, the mess ratios, `early_stop_count` and `lazy_str_hard_failure`. -/
def chunksLoop (ctx : ProbeCtx) (encodingIana : String)
    (decodedPayload : Option String) (seqLen maxChunkGaveUp : Nat) :
    List Nat → List String → List Q → Nat →
    List String × List Q × Nat × Bool
  | [], mdChunks, mdRatios, earlyStop => (mdChunks, mdRatios, earlyStop, false)
  | offset :: rest, mdChunks, mdRatios, earlyStop =>
    let decodedChunkResult : Except String String :=
      match decodedPayload with
      | some payload =>
        .ok (String.mk ((payload.toList.drop offset).take ctx.settings.chunk_size))
      | none =>
        decodeBytes ctx.codecs
          (listSlice ctx.bytes offset (min (offset + ctx.settings.chunk_size) seqLen))
          encodingIana true false false
    if isInvalidChunk decodedChunkResult encodingIana then
      (mdChunks, mdRatios, maxChunkGaveUp, true)
    else
      let decodedChunk := match decodedChunkResult with | .ok s => s | .error _ => ""
      let mdChunks2 := mdChunks ++ [decodedChunk]
      let r := messRatio decodedChunk (some ctx.settings.threshold)
      let mdRatios2 := mdRatios ++ [r]
      let earlyStop2 := if Q.le ctx.settings.threshold r then earlyStop + 1 else earlyStop
      if maxChunkGaveUp ≤ earlyStop2 then (mdChunks2, mdRatios2, earlyStop2, false)
      else chunksLoop ctx encodingIana decodedPayload seqLen maxChunkGaveUp rest
        mdChunks2 mdRatios2 earlyStop2

/-- One iteration of the `'iana_encodings_loop` of `from_bytes`
(`src/lib.rs` lines 291-542): either an updated state (`continue`), an early
`return` value (`Sum.inr`), or an error for the `unwrap` panic at line 539
(never reached in practice: the match was appended just before). -/
def probeOne (ctx : ProbeCtx) (st : ProbeState) (encodingIana : String) :
    Except String (ProbeState ⊕ List CharsetMatchQ) :=
  if (!ctx.settings.include_encodings.isEmpty &&
      !ctx.settings.include_encodings.contains encodingIana) ||
     ctx.settings.exclude_encodings.contains encodingIana then
    .ok (.inl st)
  else
    let bomOrSigAvailable := decide (ctx.sigEncoding = some encodingIana)
    let isMultiByteDecoder := isMultiByteEncoding encodingIana
    if !bomOrSigAvailable && ["utf-16le", "utf-16be"].contains encodingIana then
      .ok (.inl st)
    else
      let startIdx := if bomOrSigAvailable then (ctx.sigPayload.getD []).length else 0
      let endIdx := if ctx.isTooLargeSequence && !isMultiByteDecoder then
          MAX_PROCESSED_BYTES else ctx.bytes.length
      match decodeBytes ctx.codecs (listSlice ctx.bytes startIdx endIdx)
          encodingIana true (ctx.isTooLargeSequence && !isMultiByteDecoder) false with
      | .error _ =>
        .ok (.inl { st with
          testedButHardFailure := st.testedButHardFailure ++ [encodingIana] })
      | .ok payload =>
        let decodedPayload : Option String :=
          if !ctx.isTooLargeSequence || isMultiByteDecoder then some payload else none
        if st.testedButSoftFailure.any (fun esf => ctx.similar encodingIana esf) then
          .ok (.inl st)
        else
          let maxChunkGaveUp := max 2 (ctx.settings.steps / 4)
          let targetLanguages :=
            if isMultiByteDecoder then mbEncodingLanguages encodingIana
            else encodingLanguages ctx.codecs encodingIana
          let seqLen :=
            match decodedPayload with
            | some p => p.toList.length
            | none => ctx.bytes.length
          let startingOffset :=
            match bomOrSigAvailable, decodedPayload with
            | true, none => startIdx
            | _, _ => 0
          let offsets := stepRange startingOffset seqLen
            (max (seqLen / ctx.settings.steps) 1)
          match chunksLoop ctx encodingIana decodedPayload seqLen maxChunkGaveUp
              offsets [] [] 0 with
          | (mdChunks, mdRatios, earlyStopCount, lazyStrHardFailure) =>
            if !lazyStrHardFailure && ctx.isTooLargeSequence && !isMultiByteDecoder &&
                isInvalidChunk
                  (decodeBytes ctx.codecs (ctx.bytes.drop MAX_PROCESSED_BYTES)
                    encodingIana true false false) encodingIana then
              .ok (.inl { st with
                testedButHardFailure := st.testedButHardFailure ++ [encodingIana] })
            else
              let meanMessRatio :=
                if mdRatios.isEmpty then Q.ofInt 0
                else Q.div (mdRatios.foldl Q.add (Q.ofInt 0)) (Q.ofNat mdRatios.length)
              if Q.le ctx.settings.threshold meanMessRatio ∨
                  maxChunkGaveUp ≤ earlyStopCount then
                let st2 := { st with
                  testedButSoftFailure := st.testedButSoftFailure ++ [encodingIana] }
                if ctx.settings.enable_fallback && !lazyStrHardFailure &&
                    ctx.prioritizedEncodings.contains encodingIana then
                  let fallbackEntry := some (charsetMatchNew ctx.codecs ctx.bytes
                    encodingIana ctx.settings.threshold false [] decodedPayload)
                  if encodingIana = ctx.specifiedEncoding then
                    .ok (.inl { st2 with fallbackSpecified := fallbackEntry })
                  else if encodingIana = "ascii" then
                    .ok (.inl { st2 with fallbackAscii := fallbackEntry })
                  else
                    .ok (.inl { st2 with fallbackU8 := fallbackEntry })
                else .ok (.inl st2)
              else
                let cdRatios :=
                  if encodingIana = "ascii" then []
                  else mdChunks.filterMap (fun chunk =>
                    (coherenceRatio ctx.ho chunk (some ctx.settings.language_threshold)
                      (some targetLanguages)).toOption)
                let cdRatiosMerged := mergeCoherenceRatios ctx.ho cdRatios
                let results2 := appendCM st.results
                  (charsetMatchNew ctx.codecs ctx.bytes encodingIana meanMessRatio
                    bomOrSigAvailable cdRatiosMerged decodedPayload)
                if (Q.lt meanMessRatio (Q.mk2 1 10) ∧
                    ctx.prioritizedEncodings.contains encodingIana = true) ∨
                    encodingIana = ctx.sigEncoding.getD "" then
                  match getByEncoding results2 encodingIana with
                  | some m => .ok (.inr [m])
                  | none => .error "get_by_encoding unwrap panicked"
                else .ok (.inl { st with results := results2 })

/-- The whole `'iana_encodings_loop`. -/
def probeAll (ctx : ProbeCtx) :
    List String → ProbeState → Except String (ProbeState ⊕ List CharsetMatchQ)
  | [], st => .ok (.inl st)
  | enc :: rest, st =>
    match probeOne ctx st enc with
    | .error e => .error e
    | .ok (.inr result) => .ok (.inr result)
    | .ok (.inl st2) => probeAll ctx rest st2

/-- `from_bytes` (`src/lib.rs` lines 173-578).  The codec table, the
`is_cp_similar` relation and the hash-map iteration orders are parameters
(external or generated collaborators); a panic of the source is an
`.error`. -/
def fromBytes (codecs : String → Option CodecQ) (similar : String → String → Bool)
    (ho : HashOrder) (bytes : List Nat) (settings0 : Option NormalizerSettingsQ) :
    Except String (List CharsetMatchQ) :=
  match normalizeEncodingSettings (settings0.getD defaultSettings) with
  | .error e => .error e
  | .ok settingsA =>
    let bytesLength := bytes.length
    if bytesLength = 0 then .ok [defaultCharsetMatch]
    else
      let settingsB :=
        if bytesLength ≤ settingsA.chunk_size * settingsA.steps then
          { settingsA with
            steps := 1
            chunk_size := bytesLength }
        else settingsA
      let settings :=
        if 1 < settingsB.steps ∧ bytesLength / settingsB.steps < settingsB.chunk_size then
          { settingsB with chunk_size := bytesLength / settingsB.steps }
        else settingsB
      let isTooLargeSequence := decide (TOO_BIG_SEQUENCE < bytesLength)
      let specifiedEncoding :=
        if settings.preemptive_behaviour then
          (anySpecifiedEncoding bytes 4096).getD ""
        else ""
      let prioritizedA :=
        if specifiedEncoding = "" then [] else [specifiedEncoding]
      let sig := identifySigOrBom bytes
      let prioritizedB := prioritizedA ++
        (match sig.1 with | some e => [e] | none => [])
      let prioritizedEncodings := prioritizedB ++ ["ascii", "utf-8"]
      let ianaEncodings := prioritizedEncodings.reverse.foldl moveToFront IANA_SUPPORTED
      let ctx : ProbeCtx := ⟨codecs, similar, ho, bytes, settings, specifiedEncoding,
        prioritizedEncodings, sig.1, sig.2, isTooLargeSequence⟩
      match probeAll ctx ianaEncodings ⟨[], [], none, none, none, []⟩ with
      | .error e => .error e
      | .ok (.inr result) => .ok result
      | .ok (.inl st) =>
        if st.results.isEmpty then
          let fb :=
            match st.fallbackSpecified, st.fallbackU8, st.fallbackAscii with
            | some specified, _, _ => some specified
            | none, some u8Fallback, none => some u8Fallback
            | none, some u8Fallback, some ascii =>
              if u8Fallback.decoded_payload ≠ ascii.decoded_payload then
                some u8Fallback
              else some ascii
            | none, none, some ascii => some ascii
            | none, none, none => none
          match fb with
          | some fbToPass => .ok (appendCM st.results fbToPass)
          | none => .ok st.results
        else .ok st.results

/-! ## Claim C2 -/

/-- **C2** counterexample: a settings value whose `include_encodings` holds a
label that `iana_name` cannot resolve is *not* dropped silently —
`iana_name(e).unwrap()` at `src/lib.rs` line 181 panics (embedded as an
error), before the input bytes are even looked at (here: empty input, which
would otherwise return the default match). -/
theorem c2_unresolvable_label_panics :
    fromBytes codecsMin (fun _ _ => false) hoId []
      (some { defaultSettings with include_encodings := ["not-a-real-charset"] })
      = .error "iana_name unwrap panicked on label not-a-real-charset" := by
  rfl

/-- `resolveAllLabels` succeeds exactly as the canonicalising map when every
label resolves. -/
theorem resolveAllLabels_ok (l : List String)
    (h : ∀ e ∈ l, (ianaName e).isSome = true) :
    resolveAllLabels l = .ok (l.map (fun e => (ianaName e).getD e)) := by
  induction l with
  | nil => rfl
  | cons e rest ih =>
    have he := h e (by simp)
    rcases hi : ianaName e with _ | n
    · rw [hi] at he; cases he
    · simp only [resolveAllLabels, hi, ih (fun x hx => h x (by simp [hx])),
        Except.map, List.map_cons, Option.getD]

/-- **C2** (amended): unresolvable labels are not dropped silently — they
panic (see the counterexample).  What does hold is: whenever every label of
`include_encodings` and `exclude_encodings` resolves through `iana_name`, the
settings re-check of `from_bytes` succeeds and rewrites both lists to their
canonical IANA names, and probing proceeds normally. -/
theorem c2_amended_resolvable_labels_canonicalized (settings : NormalizerSettingsQ)
    (hinc : ∀ e ∈ settings.include_encodings, (ianaName e).isSome = true)
    (hexc : ∀ e ∈ settings.exclude_encodings, (ianaName e).isSome = true) :
    normalizeEncodingSettings settings =
      .ok { settings with
        include_encodings :=
          settings.include_encodings.map (fun e => (ianaName e).getD e)
        exclude_encodings :=
          settings.exclude_encodings.map (fun e => (ianaName e).getD e) } := by
  unfold normalizeEncodingSettings
  rcases hi : settings.include_encodings.isEmpty with _ | _
  · rcases he : settings.exclude_encodings.isEmpty with _ | _
    · simp only [hi, he, if_false, Bool.false_eq_true,
        resolveAllLabels_ok _ hinc, resolveAllLabels_ok _ hexc]
    · have he2 : settings.exclude_encodings = [] := List.isEmpty_iff.mp he
      simp only [hi, he, if_false, if_true, Bool.false_eq_true,
        resolveAllLabels_ok _ hinc, he2, List.map_nil]
  · have hi2 : settings.include_encodings = [] := List.isEmpty_iff.mp hi
    rcases he : settings.exclude_encodings.isEmpty with _ | _
    · simp only [hi, he, if_false, if_true, Bool.false_eq_true,
        resolveAllLabels_ok _ hexc, hi2, List.map_nil]
    · have he2 : settings.exclude_encodings = [] := List.isEmpty_iff.mp he
      simp only [hi, he, if_true, hi2, he2, List.map_nil]

/-- **C2** (amended) witness: the alias label "utf8" and the upper-case label
"UTF-8" both resolve, and the re-check canonicalises both to "utf-8". -/
theorem c2_amended_witness :
    normalizeEncodingSettings
      { defaultSettings with
        include_encodings := ["utf8"]
        exclude_encodings := ["UTF-8"] } =
      .ok { defaultSettings with
        include_encodings := ["utf-8"]
        exclude_encodings := ["utf-8"] } :=
  c2_amended_resolvable_labels_canonicalized _ (by decide) (by decide)

/-! ## Claim C4 -/

/-- **C4**: for the empty byte sequence and default settings (`None`),
`from_bytes` returns — for every codec table, similarity relation and
hash-map iteration order — a container holding exactly the single default
match, whose `get_best()` is that match, with encoding "utf-8", empty decoded
payload, and `bom() = false`: empty input is not an error. -/
theorem c4_empty_input_default_utf8 (codecs : String → Option CodecQ)
    (similar : String → String → Bool) (ho : HashOrder) :
    fromBytes codecs similar ho [] none = .ok [defaultCharsetMatch] ∧
    getBestCM [defaultCharsetMatch] = some defaultCharsetMatch ∧
    defaultCharsetMatch.encoding = "utf-8" ∧
    defaultCharsetMatch.decoded_payload = some "" ∧
    defaultCharsetMatch.has_sig_or_bom = false :=
  ⟨rfl, rfl, rfl, rfl, rfl⟩

/-! ## Claim C6 -/

/-- Two UTF-8 BOMs (`EF BB BF EF BB BF`) followed by the UTF-8 bytes of
"hello world". -/
def c6Bytes : List Nat :=
  [0xEF, 0xBB, 0xBF, 0xEF, 0xBB, 0xBF, 0x68, 0x65, 0x6C, 0x6C, 0x6F, 0x20,
   0x77, 0x6F, 0x72, 0x6C, 0x64]

/-- **C6** counterexample: on a payload that still begins with an encoded
U+FEFF after the BOM bytes were stripped, `from_bytes` produces a match whose
`decoded_payload()` *does* start with U+FEFF.  The utf-8 probe materialises
the decoded string from the signature-stripped bytes (`EF BB BF` + "hello
world" → U+FEFF + "hello world"), passes the mess gate (mean mess 2/13 <
0.2), and the early accept for the BOM-matching encoding returns that match;
since the decoded payload was *supplied* to `CharsetMatch::new`, the
U+FEFF-stripping branch of the constructor never runs. -/
theorem c6_decoded_payload_keeps_feff :
    ((fromBytes codecsMin (fun _ _ => false) hoId c6Bytes none).toOption.getD
      []).map (fun m => m.encoding) = ["utf-8"] ∧
    ((fromBytes codecsMin (fun _ _ => false) hoId c6Bytes none).toOption.getD
      []).map (fun m => (m.decoded_payload.getD "").toList.head?) =
      [some (Char.ofNat 0xFEFF)] := by
  exact ⟨by decide, by decide⟩

/-- **C6** (amended): the U+FEFF guarantee holds only for the recomputed
branch of `CharsetMatch::new`, and only one BOM deep — a match built without
a supplied decoded string has a decoded payload starting with U+FEFF exactly
when the raw strict decode of its payload begins with *two* U+FEFF characters
(the constructor strips a single leading U+FEFF); matches built with a
supplied decoded string (the materialised pre-check payload of `from_bytes`)
keep any leading U+FEFF, as the counterexample shows. -/
theorem c6_amended_recomputed_strip_is_single
    (codecs : String → Option CodecQ) (payload : List Nat) (enc : String)
    (mmr : Q) (bom : Bool) (cms : List CoherenceMatchQ) (d : String)
    (h : (charsetMatchNew codecs payload enc mmr bom cms none).decoded_payload
      = some d)
    (hf : d.toList.head? = some (Char.ofNat 0xFEFF)) :
    ∃ res, decodeBytes codecs payload enc true false true = .ok res ∧
      res.toList.head? = some (Char.ofNat 0xFEFF) ∧
      res.toList.tail.head? = some (Char.ofNat 0xFEFF) := by
  rcases hdec : decodeBytes codecs payload enc true false true with e | res
  · simp only [charsetMatchNew, hdec] at h
    cases h
  · simp only [charsetMatchNew, hdec, Option.some.injEq] at h
    rcases hres : res.toList with _ | ⟨c, rest⟩
    · simp only [stripOneBOM, hres] at h
      rw [← h, hres] at hf
      cases hf
    · by_cases hc : c = Char.ofNat 0xFEFF
      · refine ⟨res, rfl, ?_, ?_⟩
        · rw [hres, hc]; rfl
        · simp only [stripOneBOM, hres, hc, if_true] at h
          rw [← h] at hf
          rw [hres]
          simpa using hf
      · simp only [stripOneBOM, hres, hc, if_false] at h
        rw [← h, hres] at hf
        simp only [List.head?] at hf
        exact absurd (Option.some.inj hf) hc

/-- **C6** (amended) witness: on the double-BOM payload `c6Bytes` the
recomputed decoded payload still starts with U+FEFF, and indeed the raw
decode begins with two U+FEFF characters. -/
theorem c6_amended_witness :
    ((charsetMatchNew codecsMin c6Bytes "utf-8" (Q.ofInt 0) false []
      none).decoded_payload.getD "").toList.head? = some (Char.ofNat 0xFEFF) ∧
    ∃ res, decodeBytes codecsMin c6Bytes "utf-8" true false true = .ok res ∧
      res.toList.head? = some (Char.ofNat 0xFEFF) ∧
      res.toList.tail.head? = some (Char.ofNat 0xFEFF) :=
  ⟨by decide,
   c6_amended_recomputed_strip_is_single codecsMin c6Bytes "utf-8" (Q.ofInt 0)
     false [] (String.mk (Char.ofNat 0xFEFF :: "hello world".toList))
     (by decide) (by decide)⟩

end CharsetNormalizer
